import Mathlib

/-
Verification of the echo-bridge partitioned convolution reverb.

The development shallowly embeds the DSP core of the repository:

  * src/src/shy_fft.h                 -- the ShyFFT transform (Direct, Complex, Inverse)
  * src/src/EchoBridgeWithUSB.cpp     -- PartitionedConvolutionReverb (dual-tier engine)
  * src/EchoBridgeWithUSB.cpp         -- ConvolutionReverb (single-tier legacy engine)
                                         and its AudioCallback mixing stage

Buffers are modelled as total functions from array index to sample value; the
element type is kept generic over a field, mirroring the C++ template parameter
T of ShyFFT (instantiated at float in the source, at real numbers in the
theorems).  Scalar parameters that the control code stores in floats (mix,
milliseconds, cutoff frequencies, width factors) are modelled as rationals,
since every float is a rational; size_t casts of nonnegative floats become
Int.toNat of the rational floor.  The daisysp::Svf filters are an external
library, not part of this repository, so filter state is an abstract type with
abstract operations, exactly as the spec treats the post-filter stage as a
collaborator with opaque state.
-/

namespace EchoBridge

/-! ## Generic fold helpers -/

/-- Invariant preservation for a left fold. -/
theorem foldlPreserve {β γ : Type} (P : γ → Prop) (f : γ → β → γ) :
    ∀ (l : List β) (init : γ), P init → (∀ c b, b ∈ l → P c → P (f c b)) →
      P (List.foldl f init l) := by
  intro l
  induction l with
  | nil => intro init h0 _; simpa using h0
  | cons b t ih =>
      intro init h0 hstep
      simp only [List.foldl_cons]
      exact ih (f init b) (hstep init b (List.mem_cons_self b t) h0)
        (fun c b' hb' hc => hstep c b' (List.mem_cons_of_mem b hb') hc)

/-- Indexed invariant for a left fold over List.range. -/
theorem foldlRangeInd {γ : Type} (R : ℕ → γ → Prop) (f : γ → ℕ → γ) :
    ∀ (n : ℕ) (init : γ), R 0 init → (∀ j c, j < n → R j c → R (j + 1) (f c j)) →
      R n (List.foldl f init (List.range n)) := by
  intro n
  induction n with
  | zero => intro init h0 _; simpa using h0
  | succ n ih =>
      intro init h0 hstep
      rw [List.range_succ, List.foldl_append]
      exact hstep n _ (Nat.lt_succ_self n)
        (ih init h0 (fun j c hj hc => hstep j c (Nat.lt_succ_of_lt hj) hc))

/-! ## ShyFFT (src/src/shy_fft.h)

The transform is embedded generically over the element type and over the
twiddle tables, matching the C++ class template; the concrete twiddle tables
(cosines and sines of the unit-root angles precomputed in the constructor) are
instantiated below over the real numbers. -/

/-- BitReverse loop: result = (result shifted left) plus low bit, index shifted right. -/
def bitReverseAux : ℕ → ℕ → ℕ → ℕ
  | 0, _, result => result
  | bits + 1, index, result => bitReverseAux bits (index / 2) (result * 2 + index % 2)

/-- ShyFFT::BitReverse(index, bits). -/
def bitReverse (index bits : ℕ) : ℕ :=
  bitReverseAux bits index 0

variable {α : Type} [Field α]

/-- One butterfly of ShyFFT::Direct.  The imaginary contribution is multiplied
by the literal zero that appears in the source (the computed im value is dead
code there and is dropped). -/
def butterflyDirect (tr ti : ℕ → α) (N m : ℕ) (buf : ℕ → α) (k j : ℕ) : ℕ → α :=
  let m2 := m / 2
  let i1 := k + j
  let i2 := i1 + m2
  let re := buf i2 * tr (j * N / m) - 0 * ti (j * N / m)
  Function.update (Function.update buf i2 (buf i1 - re)) i1 (buf i1 + re)

/-- One stage of ShyFFT::Direct: the k loop steps by m, the j loop covers half
a block. -/
def directStage (tr ti : ℕ → α) (N : ℕ) (buf : ℕ → α) (stage : ℕ) : ℕ → α :=
  let m := 2 ^ stage
  let m2 := m / 2
  List.foldl
    (fun b k => List.foldl (fun b2 j => butterflyDirect tr ti N m b2 k j) b (List.range m2))
    buf (((List.range ((N + m - 1) / m)).map (fun kb => kb * m)))

/-- ShyFFT::Direct: copy the input with bit reversal, then run the stages
1..log2 N. -/
def shyDirect (tr ti : ℕ → α) (N : ℕ) (input : ℕ → α) : ℕ → α :=
  let log2N := Nat.log2 N
  let permuted : ℕ → α := fun i => if i < N then input (bitReverse i log2N) else input i
  List.foldl (directStage tr ti N) permuted ((List.range log2N).map (fun s => s + 1))

/-- One butterfly of ShyFFT::Complex on a pair of real/imaginary buffers. -/
def butterflyComplex (tr ti : ℕ → α) (N m : ℕ) (st : (ℕ → α) × (ℕ → α)) (k j : ℕ) :
    (ℕ → α) × (ℕ → α) :=
  let m2 := m / 2
  let i1 := k + j
  let i2 := i1 + m2
  let re := st.1 i2 * tr (j * N / m) - st.2 i2 * ti (j * N / m)
  let im := st.1 i2 * ti (j * N / m) + st.2 i2 * tr (j * N / m)
  (Function.update (Function.update st.1 i2 (st.1 i1 - re)) i1 (st.1 i1 + re),
   Function.update (Function.update st.2 i2 (st.2 i1 - im)) i1 (st.2 i1 + im))

/-- One stage of ShyFFT::Complex; the k loop runs over the first size entries. -/
def complexStage (tr ti : ℕ → α) (N size : ℕ) (st : (ℕ → α) × (ℕ → α)) (stage : ℕ) :
    (ℕ → α) × (ℕ → α) :=
  let m := 2 ^ stage
  let m2 := m / 2
  List.foldl
    (fun b k => List.foldl (fun b2 j => butterflyComplex tr ti N m b2 k j) b (List.range m2))
    st (((List.range ((size + m - 1) / m)).map (fun kb => kb * m)))

/-- ShyFFT::Complex: scatter both buffers into bit-reversed temporaries (the
uninitialised stack temporaries are modelled as zero; for size = N every entry
below N is overwritten by the scatter), run the stages, copy the first size
entries back. -/
def shyComplex (tr ti : ℕ → α) (N size : ℕ) (re im : ℕ → α) : (ℕ → α) × (ℕ → α) :=
  let log2N := Nat.log2 N
  let tempRe := List.foldl (fun t i => Function.update t (bitReverse i log2N) (re i))
    (fun _ => 0) (List.range size)
  let tempIm := List.foldl (fun t i => Function.update t (bitReverse i log2N) (im i))
    (fun _ => 0) (List.range size)
  let res := List.foldl (complexStage tr ti N size) (tempRe, tempIm)
    ((List.range log2N).map (fun s => s + 1))
  (fun i => if i < size then res.1 i else re i,
   fun i => if i < size then res.2 i else im i)

/-- ShyFFT::Inverse: conjugate, run Complex, scale the first size entries by
1/size. -/
def shyInverse (tr ti : ℕ → α) (N size : ℕ) (re im : ℕ → α) : (ℕ → α) × (ℕ → α) :=
  let imConj : ℕ → α := fun i => if i < size then -(im i) else im i
  let c := shyComplex tr ti N size re imConj
  (fun i => if i < size then c.1 i * (1 / (size : α)) else c.1 i,
   fun i => if i < size then c.2 i * (1 / (size : α)) else c.2 i)

/-! ### Structural lemmas about the Direct transform

These hold for every twiddle table: they depend only on the butterfly wiring,
not on the trigonometric values. -/

/-- A butterfly maps the all-zero buffer to the all-zero buffer. -/
theorem butterflyDirect_zero (tr ti : ℕ → α) (N m k j : ℕ) :
    butterflyDirect tr ti N m (fun _ => (0 : α)) k j = fun _ => 0 := by
  funext x
  simp only [butterflyDirect, Function.update_apply]
  split_ifs <;> ring

/-- A Direct stage maps the all-zero buffer to the all-zero buffer. -/
theorem directStage_zero (tr ti : ℕ → α) (N stage : ℕ) :
    directStage tr ti N (fun _ => (0 : α)) stage = fun _ => 0 := by
  unfold directStage
  refine foldlPreserve (fun b => b = fun _ => 0) _ _ _ rfl ?_
  intro c k _ hc
  subst hc
  refine foldlPreserve (fun b => b = fun _ => 0) _ _ _ rfl ?_
  intro c2 j _ hc2
  subst hc2
  exact butterflyDirect_zero tr ti N _ k j

/-- ShyFFT::Direct maps the all-zero signal to the all-zero output. -/
theorem shyDirect_zero (tr ti : ℕ → α) (N : ℕ) :
    shyDirect tr ti N (fun _ => (0 : α)) = fun _ => 0 := by
  have hperm : (fun i => if i < N then (fun _ => (0 : α)) (bitReverse i (Nat.log2 N))
      else (fun _ => (0 : α)) i) = fun _ => (0 : α) := by
    funext x; split_ifs <;> rfl
  simp only [shyDirect]
  rw [hperm]
  refine foldlPreserve (fun b => b = fun _ => 0) _ _ _ rfl ?_
  intro c s _ hc
  subst hc
  exact directStage_zero tr ti N s

theorem log2_two_pow (B : ℕ) : Nat.log2 (2 ^ B) = B := by
  rw [Nat.log2_eq_log_two]
  exact Nat.log_pow Nat.one_lt_two B

theorem bitReverseAux_zero (b : ℕ) : bitReverseAux b 0 0 = 0 := by
  induction b with
  | zero => rfl
  | succ b ih => simpa [bitReverseAux] using ih

theorem bitReverseAux_linear (b : ℕ) :
    ∀ j a, bitReverseAux b j a = a * 2 ^ b + bitReverseAux b j 0 := by
  induction b with
  | zero => intro j a; simp [bitReverseAux]
  | succ b ih =>
      intro j a
      simp only [bitReverseAux]
      rw [ih (j / 2) (a * 2 + j % 2), ih (j / 2) (0 * 2 + j % 2)]
      ring

theorem bitReverseAux_eq_zero (b : ℕ) :
    ∀ j, bitReverseAux b j 0 = 0 → j % 2 ^ b = 0 := by
  induction b with
  | zero => intro j _; simpa using Nat.mod_one j
  | succ b ih =>
      intro j h
      simp only [bitReverseAux, Nat.zero_mul, Nat.zero_add] at h
      rw [bitReverseAux_linear b (j / 2) (j % 2)] at h
      have hmul : j % 2 * 2 ^ b = 0 := by
        rcases Nat.add_eq_zero_iff.mp h with ⟨h1, _⟩
        exact h1
      have haux : bitReverseAux b (j / 2) 0 = 0 := by
        rcases Nat.add_eq_zero_iff.mp h with ⟨_, h2⟩
        exact h2
      have hbit : j % 2 = 0 := by
        rcases Nat.mul_eq_zero.mp hmul with h1 | h1
        · exact h1
        · exact absurd h1 (Nat.pos_iff_ne_zero.mp (Nat.pos_pow_of_pos b (by norm_num)))
      obtain ⟨q, hq⟩ := Nat.dvd_of_mod_eq_zero (ih (j / 2) haux)
      have h2 : 2 * (j / 2) + j % 2 = j := Nat.div_add_mod j 2
      rw [hbit, hq] at h2
      have hj : j = 2 ^ (b + 1) * q := by
        rw [← h2]
        ring
      rw [hj]
      exact Nat.mul_mod_right _ _

/-- For indices below 2^B, only index 0 bit-reverses to 0. -/
theorem bitReverse_eq_zero_iff (B j : ℕ) (hj : j < 2 ^ B) :
    bitReverse j B = 0 ↔ j = 0 := by
  constructor
  · intro h
    have := bitReverseAux_eq_zero B j h
    rwa [Nat.mod_eq_of_lt hj] at this
  · intro h
    subst h
    exact bitReverseAux_zero B

/-- Butterfly inside block 0 of stage s+1: extends the constant prefix by one. -/
theorem butterflyDirect_impulse_step (tr ti : ℕ → α) (N s j : ℕ) (c : α) (hj : j < 2 ^ s) :
    butterflyDirect tr ti N (2 ^ (s + 1)) (fun i => if i < 2 ^ s + j then c else 0) 0 j =
      fun i => if i < 2 ^ s + (j + 1) then c else 0 := by
  have hm2 : 2 ^ (s + 1) / 2 = 2 ^ s := by
    rw [pow_succ]
    exact Nat.mul_div_cancel _ (by norm_num)
  have hs0 : 0 < 2 ^ s := Nat.pos_pow_of_pos s (by norm_num)
  funext x
  simp only [butterflyDirect, Function.update_apply, hm2, Nat.zero_add]
  have hv1 : (if j < 2 ^ s + j then c else 0) = c := if_pos (by omega)
  have hv2 : (if j + 2 ^ s < 2 ^ s + j then c else 0) = 0 := if_neg (by omega)
  rw [hv1, hv2]
  by_cases h1 : x = j
  · subst h1
    rw [if_pos rfl, if_pos (by omega)]
    ring
  · rw [if_neg h1]
    by_cases h2 : x = j + 2 ^ s
    · subst h2
      rw [if_pos rfl, if_pos (by omega)]
      ring
    · rw [if_neg h2]
      have : (x < 2 ^ s + j) ↔ (x < 2 ^ s + (j + 1)) := by omega
      simp only [this]

/-- Butterfly in a block at or beyond the constant prefix: a no-op. -/
theorem butterflyDirect_impulse_tail (tr ti : ℕ → α) (N s k j : ℕ) (c : α)
    (hk : 2 ^ (s + 1) ≤ k) :
    butterflyDirect tr ti N (2 ^ (s + 1)) (fun i => if i < 2 ^ (s + 1) then c else 0) k j =
      fun i => if i < 2 ^ (s + 1) then c else 0 := by
  funext x
  simp only [butterflyDirect, Function.update_apply]
  have hv1 : (if k + j < 2 ^ (s + 1) then c else 0) = 0 := if_neg (by omega)
  have hv2 : (if k + j + 2 ^ (s + 1) / 2 < 2 ^ (s + 1) then c else 0) = 0 := if_neg (by omega)
  rw [hv1, hv2]
  by_cases h1 : x = k + j
  · subst h1
    rw [if_pos rfl, if_neg (by omega)]
    ring
  · rw [if_neg h1]
    by_cases h2 : x = k + j + 2 ^ (s + 1) / 2
    · subst h2
      rw [if_pos rfl, if_neg (by omega)]
      ring
    · rw [if_neg h2]

/-- One Direct stage doubles the constant prefix of an impulse-propagation
buffer. -/
theorem directStage_impulse (tr ti : ℕ → α) (B s : ℕ) (c : α) (hs : s < B) :
    directStage tr ti (2 ^ B) (fun i => if i < 2 ^ s then c else 0) (s + 1) =
      fun i => if i < 2 ^ (s + 1) then c else 0 := by
  have hm2 : 2 ^ (s + 1) / 2 = 2 ^ s := by
    rw [pow_succ]
    exact Nat.mul_div_cancel _ (by norm_num)
  have hcount : (2 ^ B + 2 ^ (s + 1) - 1) / 2 ^ (s + 1) = 2 ^ (B - (s + 1)) := by
    have hm : 0 < 2 ^ (s + 1) := Nat.pos_pow_of_pos _ (by norm_num)
    have hsplit : 2 ^ B = 2 ^ (s + 1) * 2 ^ (B - (s + 1)) := by
      rw [← pow_add]
      congr 1
      omega
    have heq : 2 ^ B + 2 ^ (s + 1) - 1 = 2 ^ (s + 1) * 2 ^ (B - (s + 1)) + (2 ^ (s + 1) - 1) := by
      omega
    rw [heq, Nat.mul_add_div hm, Nat.div_eq_of_lt (by omega)]
    omega
  simp only [directStage]
  rw [hcount, List.foldl_map, hm2]
  have hstep : ∀ kidx b, kidx < 2 ^ (B - (s + 1)) →
      (b = if kidx = 0 then (fun i => if i < 2 ^ s then c else 0)
        else fun i => if i < 2 ^ (s + 1) then c else 0) →
      (List.foldl (fun b2 j => butterflyDirect tr ti (2 ^ B) (2 ^ (s + 1)) b2
          (kidx * 2 ^ (s + 1)) j) b (List.range (2 ^ s)) =
        if kidx + 1 = 0 then (fun i => if i < 2 ^ s then c else 0)
        else fun i => if i < 2 ^ (s + 1) then c else 0) := by
    intro kidx b _ hb
    subst hb
    rw [if_neg (Nat.succ_ne_zero kidx)]
    by_cases hk0 : kidx = 0
    · subst hk0
      rw [if_pos rfl]
      simp only [Nat.zero_mul]
      have hinner := foldlRangeInd
        (fun j b => b = fun i => if i < 2 ^ s + j then c else 0)
        (fun b2 j => butterflyDirect tr ti (2 ^ B) (2 ^ (s + 1)) b2 0 j)
        (2 ^ s) (fun i => if i < 2 ^ s then c else 0) (by simp)
        (fun j b2 hj hb2 => by
          subst hb2
          exact butterflyDirect_impulse_step tr ti (2 ^ B) s j c hj)
      rw [hinner]
      funext x
      have hx : (x < 2 ^ s + 2 ^ s) ↔ (x < 2 ^ (s + 1)) := by
        rw [pow_succ]; omega
      simp only [hx]
    · rw [if_neg hk0]
      refine foldlPreserve (fun b => b = fun i => if i < 2 ^ (s + 1) then c else 0) _ _ _ rfl ?_
      intro b2 j _ hb2
      subst hb2
      exact butterflyDirect_impulse_tail tr ti (2 ^ B) s (kidx * 2 ^ (s + 1)) j c
        (Nat.le_mul_of_pos_left _ (Nat.pos_of_ne_zero hk0))
  have hq : 0 < 2 ^ (B - (s + 1)) := Nat.pos_pow_of_pos _ (by norm_num)
  have hmain := foldlRangeInd
    (fun kidx b => b = if kidx = 0 then (fun i => if i < 2 ^ s then c else 0)
      else fun i => if i < 2 ^ (s + 1) then c else 0)
    (fun b kidx => List.foldl (fun b2 j => butterflyDirect tr ti (2 ^ B) (2 ^ (s + 1)) b2
      (kidx * 2 ^ (s + 1)) j) b (List.range (2 ^ s)))
    (2 ^ (B - (s + 1))) (fun i => if i < 2 ^ s then c else 0) (by simp) hstep
  have hne : 2 ^ (B - (s + 1)) ≠ 0 := Nat.pos_iff_ne_zero.mp hq
  simpa only [if_neg hne] using hmain

/-- ShyFFT::Direct maps a scaled unit impulse to the constant spectrum: every
entry below N equals the impulse amplitude.  This holds for every twiddle
table, because the imaginary data dropped by Direct is identically zero here. -/
theorem shyDirect_impulse (tr ti : ℕ → α) (B : ℕ) (c : α) :
    shyDirect tr ti (2 ^ B) (fun i => if i = 0 then c else 0) =
      fun j => if j < 2 ^ B then c else 0 := by
  have hperm : (fun i => if i < 2 ^ B then
        (fun i0 => if i0 = 0 then c else (0 : α)) (bitReverse i (Nat.log2 (2 ^ B)))
      else (fun i0 => if i0 = 0 then c else 0) i) =
      fun i => if i < 2 ^ 0 then c else 0 := by
    rw [log2_two_pow]
    funext x
    by_cases hx : x < 2 ^ B
    · by_cases hx0 : x = 0
      · subst hx0
        have h0 : bitReverse 0 B = 0 := (bitReverse_eq_zero_iff B 0 hx).mpr rfl
        simp [hx, h0]
      · have hbr : bitReverse x B ≠ 0 := fun h => hx0 ((bitReverse_eq_zero_iff B x hx).mp h)
        simp [hx, hbr, Nat.lt_one_iff, hx0]
    · have hx1 : ¬ x = 0 := by
        have := Nat.pos_pow_of_pos B (show 0 < 2 by norm_num)
        omega
      simp [hx, hx1, Nat.lt_one_iff]
  simp only [shyDirect]
  rw [hperm, log2_two_pow, List.foldl_map]
  exact foldlRangeInd
    (fun s b => b = fun i => if i < 2 ^ s then c else 0)
    _ B _ rfl
    (fun s b hs hb => by subst hb; exact directStage_impulse tr ti B s c hs)

/-- Twiddle table, real part: cos(-2 pi i / N), as precomputed in the ShyFFT
constructor. -/
noncomputable def twiddlesReal (N : ℕ) (i : ℕ) : ℝ :=
  Real.cos (-2 * Real.pi * i / N)

/-- Twiddle table, imaginary part: sin(-2 pi i / N). -/
noncomputable def twiddlesImag (N : ℕ) (i : ℕ) : ℝ :=
  Real.sin (-2 * Real.pi * i / N)

theorem twiddlesReal_four_zero : twiddlesReal 4 0 = 1 := by
  rw [twiddlesReal]
  push_cast
  norm_num

theorem twiddlesReal_four_one : twiddlesReal 4 1 = 0 := by
  rw [twiddlesReal]
  push_cast
  have h : (-2 * Real.pi * 1 / 4 : ℝ) = -(Real.pi / 2) := by ring
  rw [h, Real.cos_neg, Real.cos_pi_div_two]

theorem twiddlesImag_four_zero : twiddlesImag 4 0 = 0 := by
  rw [twiddlesImag]
  push_cast
  norm_num

theorem twiddlesImag_four_one : twiddlesImag 4 1 = -1 := by
  rw [twiddlesImag]
  push_cast
  have h : (-2 * Real.pi * 1 / 4 : ℝ) = -(Real.pi / 2) := by ring
  rw [h, Real.sin_neg, Real.sin_pi_div_two]

/-- The test signal of the FFT round-trip refutation: a unit impulse at index
1, i.e. the length-4 signal 0, 1, 0, 0. -/
def c1Signal : ℕ → ℝ := fun i => if i = 1 then 1 else 0

/-- The round trip of the claim: apply Direct to the real signal, feed the
result with a zero imaginary part to Inverse (exactly as the engine does:
after every Direct call the code sets the imaginary buffer to zero). -/
noncomputable def roundTrip4 : (ℕ → ℝ) × (ℕ → ℝ) :=
  shyInverse (twiddlesReal 4) (twiddlesImag 4) 4 4
    (shyDirect (twiddlesReal 4) (twiddlesImag 4) 4 c1Signal) (fun _ => 0)

set_option maxHeartbeats 2000000 in
theorem roundTrip4_at_one : roundTrip4.1 1 = 1 / 2 := by
  have hlog : Nat.log2 4 = 2 := by simp [Nat.log2]
  have hr4 : List.range 4 = [0, 1, 2, 3] := rfl
  have hr2 : List.range 2 = [0, 1] := rfl
  have hr1 : List.range 1 = [0] := rfl
  have hb0 : bitReverse 0 2 = 0 := rfl
  have hb1 : bitReverse 1 2 = 2 := rfl
  have hb2 : bitReverse 2 2 = 1 := rfl
  have hb3 : bitReverse 3 2 = 3 := rfl
  norm_num [roundTrip4, shyInverse, shyComplex, complexStage, butterflyComplex,
    shyDirect, directStage, butterflyDirect, c1Signal, hlog, hr4, hr2, hr1,
    hb0, hb1, hb2, hb3, Function.update_apply,
    twiddlesReal_four_zero, twiddlesReal_four_one, twiddlesImag_four_zero,
    twiddlesImag_four_one]

set_option maxHeartbeats 2000000 in
theorem roundTrip4_at_three : roundTrip4.1 3 = 1 / 2 := by
  have hlog : Nat.log2 4 = 2 := by simp [Nat.log2]
  have hr4 : List.range 4 = [0, 1, 2, 3] := rfl
  have hr2 : List.range 2 = [0, 1] := rfl
  have hr1 : List.range 1 = [0] := rfl
  have hb0 : bitReverse 0 2 = 0 := rfl
  have hb1 : bitReverse 1 2 = 2 := rfl
  have hb2 : bitReverse 2 2 = 1 := rfl
  have hb3 : bitReverse 3 2 = 3 := rfl
  norm_num [roundTrip4, shyInverse, shyComplex, complexStage, butterflyComplex,
    shyDirect, directStage, butterflyDirect, c1Signal, hlog, hr4, hr2, hr1,
    hb0, hb1, hb2, hb3, Function.update_apply,
    twiddlesReal_four_zero, twiddlesReal_four_one, twiddlesImag_four_zero,
    twiddlesImag_four_one]

/-! ## PartitionedConvolutionReverb (src/src/EchoBridgeWithUSB.cpp)

The dual-tier engine.  The daisysp::Svf filters are external library objects;
their state is an abstract type F with abstract SetFreq/SetRes/SetDrive,
Process, High and Low operations.  Scalar control parameters stored in floats
are modelled as rationals; size_t casts of nonnegative float expressions are
Int.toNat of the rational floor. -/

/-- EARLY_FFT_SIZE. -/
def EARLY_FFT_SIZE : ℕ := 64

/-- LATE_FFT_SIZE. -/
def LATE_FFT_SIZE : ℕ := 1024

/-- MAX_PREDELAY_SAMPLES (500 ms at 48 kHz). -/
def MAX_PREDELAY_SAMPLES : ℕ := 24000

/-- MAX_IR_LENGTH from src/src/IRLoader.h. -/
def MAX_IR_LENGTH : ℕ := 4096

namespace PartitionedConvolutionReverb

/-- The engine state: IR buffers, per-tier spectra, per-tier input and output
accumulators with cursors, predelay ring buffers, parameters and filter
states.  The per-block scratch arrays (earlyTimeIn/Out, earlyFreq*, the g_late
freq scratch) are fully overwritten before every read inside a block, so they
are modelled as locals of the block computation.  The irLoaded flag models the
irBuffer-pointer-is-null check of Process. -/
structure State (α F : Type) where
  irLoaded : Bool
  irBuffer : ℕ → α
  irBufferRight : ℕ → α
  irLength : ℕ
  earlyIrFreqReal : ℕ → α
  earlyIrFreqImag : ℕ → α
  earlyIrFreqRealRight : ℕ → α
  earlyIrFreqImagRight : ℕ → α
  lateIrFreqReal : ℕ → α
  lateIrFreqImag : ℕ → α
  lateIrFreqRealRight : ℕ → α
  lateIrFreqImagRight : ℕ → α
  earlyInputBuffer : ℕ → α
  earlyInputBufferRight : ℕ → α
  earlyOutputBuffer : ℕ → α
  earlyOutputBufferRight : ℕ → α
  earlyInputBufferPos : ℕ
  lateInputBuffer : ℕ → α
  lateInputBufferRight : ℕ → α
  lateOutputBuffer : ℕ → α
  lateOutputBufferRight : ℕ → α
  lateInputBufferPos : ℕ
  predelayBuffer : ℕ → α
  predelayBufferRight : ℕ → α
  predelayBufferPos : ℕ
  predelayInSamples : ℕ
  dryWet : ℚ
  predelayMs : ℚ
  irLengthFactor : ℚ
  lowCutFreq : ℚ
  highCutFreq : ℚ
  stereoWidth : ℚ
  sampleRate : ℚ
  trueStereoIR : Bool
  lowCutFilterL : F
  highCutFilterL : F
  lowCutFilterR : F
  highCutFilterR : F

variable {α F : Type} [Field α]
variable (trE tiE trL tiL : ℕ → α)
variable (svfSetFreq svfSetRes svfSetDrive : F → ℚ → F)
variable (svfProcess : F → α → F)
variable (svfHigh svfLow : F → α)

/-- UpdateFilters: push the stored cutoffs into all four filters with fixed
resonance 0.707 and drive 1. -/
def UpdateFilters (s : State α F) : State α F :=
  { s with
    lowCutFilterL :=
      svfSetDrive (svfSetRes (svfSetFreq s.lowCutFilterL s.lowCutFreq) (707 / 1000)) 1
    highCutFilterL :=
      svfSetDrive (svfSetRes (svfSetFreq s.highCutFilterL s.highCutFreq) (707 / 1000)) 1
    lowCutFilterR :=
      svfSetDrive (svfSetRes (svfSetFreq s.lowCutFilterR s.lowCutFreq) (707 / 1000)) 1
    highCutFilterR :=
      svfSetDrive (svfSetRes (svfSetFreq s.highCutFilterR s.highCutFreq) (707 / 1000)) 1 }

/-- UpdateIRFrequencyDomain: zero all spectra, transform the early slice of
the (length-factor-truncated) IR, and, when the effective length exceeds the
early block, transform the following late slice. -/
def UpdateIRFrequencyDomain (s : State α F) : Bool × State α F :=
  let effectiveIrLength0 := Int.toNat (Int.floor ((s.irLength : ℚ) * s.irLengthFactor))
  let effectiveIrLength :=
    if effectiveIrLength0 > s.irLength then s.irLength else effectiveIrLength0
  let earlyLength :=
    if effectiveIrLength < EARLY_FFT_SIZE then effectiveIrLength else EARLY_FFT_SIZE
  let earlyIrPadded : ℕ → α := fun i => if i < earlyLength then s.irBuffer i else 0
  let earlyIrPaddedRight : ℕ → α := fun i =>
    if i < earlyLength then (if s.trueStereoIR then s.irBufferRight i else s.irBuffer i) else 0
  let earlyOutL := shyDirect trE tiE EARLY_FFT_SIZE earlyIrPadded
  let earlyOutR := shyDirect trE tiE EARLY_FFT_SIZE earlyIrPaddedRight
  let s1 := { s with
    earlyIrFreqReal := fun i => if i < EARLY_FFT_SIZE then earlyOutL i else 0
    earlyIrFreqImag := fun _ => 0
    earlyIrFreqRealRight := fun i => if i < EARLY_FFT_SIZE then earlyOutR i else 0
    earlyIrFreqImagRight := fun _ => 0
    lateIrFreqReal := fun _ => 0
    lateIrFreqImag := fun _ => 0
    lateIrFreqRealRight := fun _ => 0
    lateIrFreqImagRight := fun _ => 0 }
  if EARLY_FFT_SIZE < effectiveIrLength then
    let lateLength0 := effectiveIrLength - EARLY_FFT_SIZE
    let lateLength := if lateLength0 > LATE_FFT_SIZE then LATE_FFT_SIZE else lateLength0
    let lateIrPadded : ℕ → α := fun i =>
      if i < lateLength then s.irBuffer (EARLY_FFT_SIZE + i) else 0
    let lateIrPaddedRight : ℕ → α := fun i =>
      if i < lateLength then
        (if s.trueStereoIR then s.irBufferRight (EARLY_FFT_SIZE + i)
         else s.irBuffer (EARLY_FFT_SIZE + i))
      else 0
    let lateOutL := shyDirect trL tiL LATE_FFT_SIZE lateIrPadded
    let lateOutR := shyDirect trL tiL LATE_FFT_SIZE lateIrPaddedRight
    (true, { s1 with
      lateIrFreqReal := fun i => if i < LATE_FFT_SIZE then lateOutL i else 0
      lateIrFreqImag := fun _ => 0
      lateIrFreqRealRight := fun i => if i < LATE_FFT_SIZE then lateOutR i else 0
      lateIrFreqImagRight := fun _ => 0 })
  else
    (true, s1)

/-- LoadIR: validate the length, replace the mono IR (the fresh heap buffer is
modelled as zero beyond the copied samples; no read ever goes past irLength),
clear trueStereoIR, recompute the spectra. -/
def LoadIR (s : State α F) (buffer : ℕ → α) (length : ℕ) : Bool × State α F :=
  if length = 0 ∨ length > MAX_IR_LENGTH then (false, s)
  else
    UpdateIRFrequencyDomain trE tiE trL tiL
      { s with
        irLoaded := true
        irBuffer := fun i => if i < length then buffer i else 0
        irLength := length
        trueStereoIR := false }

/-- LoadStereoIR: validate the length, replace both IR buffers, set
trueStereoIR, recompute the spectra. -/
def LoadStereoIR (s : State α F) (bufferL bufferR : ℕ → α) (length : ℕ) :
    Bool × State α F :=
  if length = 0 ∨ length > MAX_IR_LENGTH then (false, s)
  else
    UpdateIRFrequencyDomain trE tiE trL tiL
      { s with
        irLoaded := true
        irBuffer := fun i => if i < length then bufferL i else 0
        irBufferRight := fun i => if i < length then bufferR i else 0
        irLength := length
        trueStereoIR := true }

/-- SetDryWet stores the value with no clamping. -/
def SetDryWet (s : State α F) (value : ℚ) : State α F :=
  { s with dryWet := value }

/-- SetPredelay stores the milliseconds unclamped and clamps only the derived
sample count below MAX_PREDELAY_SAMPLES. -/
def SetPredelay (s : State α F) (ms : ℚ) : State α F :=
  let predelayInSamples0 := Int.toNat (Int.floor (ms * s.sampleRate / 1000))
  let n := if predelayInSamples0 ≥ MAX_PREDELAY_SAMPLES then MAX_PREDELAY_SAMPLES - 1
    else predelayInSamples0
  { s with predelayMs := ms, predelayInSamples := n }

/-- SetIRLengthFactor stores the factor with no clamping and recomputes the
spectra when it changed. -/
def SetIRLengthFactor (s : State α F) (factor : ℚ) : State α F :=
  if factor ≠ s.irLengthFactor then
    (UpdateIRFrequencyDomain trE tiE trL tiL { s with irLengthFactor := factor }).2
  else s

/-- SetLowCut stores the frequency with no clamping and refreshes the filters. -/
def SetLowCut (s : State α F) (freq : ℚ) : State α F :=
  UpdateFilters svfSetFreq svfSetRes svfSetDrive { s with lowCutFreq := freq }

/-- SetHighCut stores the frequency with no clamping and refreshes the filters. -/
def SetHighCut (s : State α F) (freq : ℚ) : State α F :=
  UpdateFilters svfSetFreq svfSetRes svfSetDrive { s with highCutFreq := freq }

/-- SetStereoWidth stores the width with no clamping. -/
def SetStereoWidth (s : State α F) (width : ℚ) : State α F :=
  { s with stereoWidth := width }

/-- One tier's block computation at a boundary: Direct on the accumulator,
copy into the frequency buffers with a zero imaginary part, complex multiply
against the stored spectrum, Inverse; the real output is the block result. -/
def convolveBlock (tr ti : ℕ → α) (N : ℕ) (input specRe specIm : ℕ → α) : ℕ → α :=
  let out := shyDirect tr ti N input
  let fr : ℕ → α := fun i => if i < N then out i else 0
  let fi : ℕ → α := fun _ => 0
  let mr : ℕ → α := fun i => if i < N then fr i * specRe i - fi i * specIm i else fr i
  let mi : ℕ → α := fun i => if i < N then fr i * specIm i + fi i * specRe i else fi i
  (shyInverse tr ti N N mr mi).1

/-- Boundary overlap-add: add the block result into the first half of the
output accumulator on top of its second half, then clear the second half. -/
def overlapAdd (N : ℕ) (outBuf res : ℕ → α) : ℕ → α :=
  fun i => if i < N then outBuf (i + N) + res i else if i < 2 * N then 0 else outBuf i

/-- Per-tick shift of the first N entries of an output accumulator. -/
def shiftOutput (N : ℕ) (buf : ℕ → α) : ℕ → α :=
  fun i => if i < N - 1 then buf (i + 1) else buf i

/-- Process one stereo sample pair.  Mirrors the source line by line: predelay
write and delayed read, accumulate into both tiers, per-tier boundary blocks
(the left-channel block result is dead: the right-channel pass overwrites the
shared scratch buffers before the overlap-add reads them), read the tier
outputs, filter, width-process, dry/wet mix, shift the output accumulators. -/
def Process (s : State α F) (inL inR : α) : (α × α) × State α F :=
  if s.irLoaded = false then ((inL, inR), s) else
  let pb := Function.update s.predelayBuffer s.predelayBufferPos inL
  let pbR := Function.update s.predelayBufferRight s.predelayBufferPos inR
  let delayedPos :=
    (s.predelayBufferPos + MAX_PREDELAY_SAMPLES - s.predelayInSamples) % MAX_PREDELAY_SAMPLES
  let delayedL := pb delayedPos
  let delayedR := pbR delayedPos
  let predelayBufferPos1 := (s.predelayBufferPos + 1) % MAX_PREDELAY_SAMPLES
  let earlyIn := Function.update s.earlyInputBuffer s.earlyInputBufferPos delayedL
  let earlyInR := Function.update s.earlyInputBufferRight s.earlyInputBufferPos delayedR
  let lateIn := Function.update s.lateInputBuffer s.lateInputBufferPos delayedL
  let lateInR := Function.update s.lateInputBufferRight s.lateInputBufferPos delayedR
  let earlyPos1 := s.earlyInputBufferPos + 1
  let latePos1 := s.lateInputBufferPos + 1
  let _earlyLeftDead :=
    convolveBlock trE tiE EARLY_FFT_SIZE earlyIn s.earlyIrFreqReal s.earlyIrFreqImag
  let earlyRightResult :=
    convolveBlock trE tiE EARLY_FFT_SIZE earlyInR s.earlyIrFreqRealRight s.earlyIrFreqImagRight
  let earlyOut1 := if earlyPos1 ≥ EARLY_FFT_SIZE then
    overlapAdd EARLY_FFT_SIZE s.earlyOutputBuffer earlyRightResult else s.earlyOutputBuffer
  let earlyOutR1 := if earlyPos1 ≥ EARLY_FFT_SIZE then
    overlapAdd EARLY_FFT_SIZE s.earlyOutputBufferRight earlyRightResult
    else s.earlyOutputBufferRight
  let earlyPos2 := if earlyPos1 ≥ EARLY_FFT_SIZE then 0 else earlyPos1
  let _lateLeftDead :=
    convolveBlock trL tiL LATE_FFT_SIZE lateIn s.lateIrFreqReal s.lateIrFreqImag
  let lateRightResult :=
    convolveBlock trL tiL LATE_FFT_SIZE lateInR s.lateIrFreqRealRight s.lateIrFreqImagRight
  let lateOut1 := if latePos1 ≥ LATE_FFT_SIZE then
    overlapAdd LATE_FFT_SIZE s.lateOutputBuffer lateRightResult else s.lateOutputBuffer
  let lateOutR1 := if latePos1 ≥ LATE_FFT_SIZE then
    overlapAdd LATE_FFT_SIZE s.lateOutputBufferRight lateRightResult
    else s.lateOutputBufferRight
  let latePos2 := if latePos1 ≥ LATE_FFT_SIZE then 0 else latePos1
  let wetL := earlyOut1 0 + lateOut1 0
  let wetR := earlyOutR1 0 + lateOutR1 0
  let lowL := svfProcess s.lowCutFilterL wetL
  let filteredL1 := svfHigh lowL
  let highL := svfProcess s.highCutFilterL filteredL1
  let filteredL2 := svfLow highL
  let lowR := svfProcess s.lowCutFilterR wetR
  let filteredR1 := svfHigh lowR
  let highR := svfProcess s.highCutFilterR filteredR1
  let filteredR2 := svfLow highR
  let widthed := if s.stereoWidth ≠ 1 then
      let mid := (filteredL2 + filteredR2) * (1 / 2 : α)
      let side := (filteredL2 - filteredR2) * (1 / 2 : α) * ((s.stereoWidth : ℚ) : α)
      (mid + side, mid - side)
    else (filteredL2, filteredR2)
  let outL := inL * (1 - ((s.dryWet : ℚ) : α)) + widthed.1 * ((s.dryWet : ℚ) : α)
  let outR := inR * (1 - ((s.dryWet : ℚ) : α)) + widthed.2 * ((s.dryWet : ℚ) : α)
  ((outL, outR),
   { s with
     predelayBuffer := pb
     predelayBufferRight := pbR
     predelayBufferPos := predelayBufferPos1
     earlyInputBuffer := earlyIn
     earlyInputBufferRight := earlyInR
     lateInputBuffer := lateIn
     lateInputBufferRight := lateInR
     earlyInputBufferPos := earlyPos2
     lateInputBufferPos := latePos2
     earlyOutputBuffer := shiftOutput EARLY_FFT_SIZE earlyOut1
     earlyOutputBufferRight := shiftOutput EARLY_FFT_SIZE earlyOutR1
     lateOutputBuffer := shiftOutput LATE_FFT_SIZE lateOut1
     lateOutputBufferRight := shiftOutput LATE_FFT_SIZE lateOutR1
     lowCutFilterL := lowL
     highCutFilterL := highL
     lowCutFilterR := lowR
     highCutFilterR := highR })

/-- The predelayed sample pair consumed by the convolver during one tick:
write the inputs at the write position, read both channels at the delayed
position (Process performs the read before advancing the position). -/
def predelayedPair (s : State α F) (inL inR : α) : α × α :=
  let pb := Function.update s.predelayBuffer s.predelayBufferPos inL
  let pbR := Function.update s.predelayBufferRight s.predelayBufferPos inR
  let delayedPos :=
    (s.predelayBufferPos + MAX_PREDELAY_SAMPLES - s.predelayInSamples) % MAX_PREDELAY_SAMPLES
  (pb delayedPos, pbR delayedPos)

/-- Iterated Process over an input stream: the state before tick t. -/
def run (s0 : State α F) (u : ℕ → α × α) : ℕ → State α F
  | 0 => s0
  | t + 1 =>
      (Process trE tiE trL tiL svfProcess svfHigh svfLow
        (run s0 u t) (u t).1 (u t).2).2

/-- Engine state right after construction and Init(48000): zeroed buffers and
cursors, default parameters; the four filter states are the abstract
post-Init filter value. -/
def initState (f : F) : State α F where
  irLoaded := false
  irBuffer := fun _ => 0
  irBufferRight := fun _ => 0
  irLength := 0
  earlyIrFreqReal := fun _ => 0
  earlyIrFreqImag := fun _ => 0
  earlyIrFreqRealRight := fun _ => 0
  earlyIrFreqImagRight := fun _ => 0
  lateIrFreqReal := fun _ => 0
  lateIrFreqImag := fun _ => 0
  lateIrFreqRealRight := fun _ => 0
  lateIrFreqImagRight := fun _ => 0
  earlyInputBuffer := fun _ => 0
  earlyInputBufferRight := fun _ => 0
  earlyOutputBuffer := fun _ => 0
  earlyOutputBufferRight := fun _ => 0
  earlyInputBufferPos := 0
  lateInputBuffer := fun _ => 0
  lateInputBufferRight := fun _ => 0
  lateOutputBuffer := fun _ => 0
  lateOutputBufferRight := fun _ => 0
  lateInputBufferPos := 0
  predelayBuffer := fun _ => 0
  predelayBufferRight := fun _ => 0
  predelayBufferPos := 0
  predelayInSamples := 0
  dryWet := 1 / 2
  predelayMs := 0
  irLengthFactor := 1
  lowCutFreq := 100
  highCutFreq := 10000
  stereoWidth := 1
  sampleRate := 48000
  trueStereoIR := false
  lowCutFilterL := f
  highCutFilterL := f
  lowCutFilterR := f
  highCutFilterR := f

end PartitionedConvolutionReverb

/-! ## ConvolutionReverb (src/EchoBridgeWithUSB.cpp)

The single-tier legacy engine.  Its call fft.Inverse(fftBuffer, tempOutputL)
does not match the three-argument signature of ShyFFT::Inverse in
src/src/shy_fft.h, so the inverse step of ProcessFFTBlock is abstracted as a
function parameter; every theorem below holds for all such functions.  The
filters are used there as value-returning processors, modelled by an abstract
step returning the new filter state and the output sample. -/

/-- FFT_SIZE of ConvolutionReverb. -/
def FFT_SIZE : ℕ := 1024

namespace ConvolutionReverb

/-- The engine state.  The fftBuffer scratch members persist across blocks
(their upper halves are never rewritten by ProcessFFTBlock), so they are state
fields. -/
structure State (α F : Type) where
  irBuffer : ℕ → α
  irBufferRight : ℕ → α
  irLength : ℕ
  irFreqReal : ℕ → α
  irFreqImag : ℕ → α
  irFreqRealRight : ℕ → α
  irFreqImagRight : ℕ → α
  inputBufferL : ℕ → α
  inputBufferR : ℕ → α
  inputBufferPos : ℕ
  outputBufferL : ℕ → α
  outputBufferR : ℕ → α
  outputBufferPos : ℕ
  fftBuffer : ℕ → α
  fftBufferR : ℕ → α
  irLengthMultiplier : ℚ
  predelayMs : ℚ
  predelaySamples : ℕ
  sampleRate : ℚ
  lowCutFreq : ℚ
  highCutFreq : ℚ
  freezeActive : Bool
  stereoWidth : ℚ
  trueStereoIR : Bool
  predelayBufferL : ℕ → α
  predelayBufferR : ℕ → α
  predelayBufferSize : ℕ
  predelayBufferPos : ℕ
  lowCutFilterL : F
  highCutFilterL : F
  lowCutFilterR : F
  highCutFilterR : F

variable {α F : Type} [Field α]
variable (tr ti : ℕ → α)
variable (inverseFn : (ℕ → α) → ℕ → α)
variable (svfStep : F → α → F × α)
variable (svfSetFreq : F → ℚ → F)

/-- UpdateIRFrequencyDomain: truncate the IR by the length multiplier, clamp
to FFT_SIZE, transform each channel, and read the result as interleaved
real/imaginary pairs into the lower half of the spectrum arrays (the upper
halves stay at the zero written by the initial memset). -/
def UpdateIRFrequencyDomain (s : State α F) : Bool × State α F :=
  let effectiveIrLength0 := Int.toNat (Int.floor ((s.irLength : ℚ) * s.irLengthMultiplier))
  let effectiveIrLength :=
    if effectiveIrLength0 > FFT_SIZE then FFT_SIZE else effectiveIrLength0
  let tempL : ℕ → α := fun i => if i < effectiveIrLength then s.irBuffer i else 0
  let tempR : ℕ → α := fun i => if i < effectiveIrLength then s.irBufferRight i else 0
  let resultL := shyDirect tr ti FFT_SIZE tempL
  let resultR := shyDirect tr ti FFT_SIZE tempR
  (true, { s with
    irFreqReal := fun i => if i < FFT_SIZE / 2 then resultL (i * 2) else 0
    irFreqImag := fun i => if i < FFT_SIZE / 2 then resultL (i * 2 + 1) else 0
    irFreqRealRight := fun i => if i < FFT_SIZE / 2 then resultR (i * 2) else 0
    irFreqImagRight := fun i => if i < FFT_SIZE / 2 then resultR (i * 2 + 1) else 0 })

/-- LoadIR: no length validation.  Copies the new samples over the head of the
preallocated IR buffers (stale data beyond the new length stays), stores the
length, clears trueStereoIR, recomputes the spectra and returns its result,
which is always true. -/
def LoadIR (s : State α F) (newIR : ℕ → α) (newIrLength : ℕ) : Bool × State α F :=
  UpdateIRFrequencyDomain tr ti
    { s with
      irLength := newIrLength
      irBuffer := fun i => if i < newIrLength then newIR i else s.irBuffer i
      irBufferRight := fun i => if i < newIrLength then newIR i else s.irBufferRight i
      trueStereoIR := false }

/-- LoadStereoIR: no length validation; always returns true. -/
def LoadStereoIR (s : State α F) (newIrLeft newIrRight : ℕ → α) (newIrLength : ℕ) :
    Bool × State α F :=
  UpdateIRFrequencyDomain tr ti
    { s with
      irLength := newIrLength
      irBuffer := fun i => if i < newIrLength then newIrLeft i else s.irBuffer i
      irBufferRight := fun i => if i < newIrLength then newIrRight i else s.irBufferRight i
      trueStereoIR := true }

/-- SetIRLength clamps the multiplier to the unit interval and recomputes the
spectra when it changed. -/
def SetIRLength (s : State α F) (multiplier : ℚ) : State α F :=
  let m0 := if multiplier < 0 then 0 else multiplier
  let m1 := if m0 > 1 then 1 else m0
  if m1 ≠ s.irLengthMultiplier then
    (UpdateIRFrequencyDomain tr ti { s with irLengthMultiplier := m1 }).2
  else s

/-- SetPredelay stores the milliseconds unclamped; the derived sample count is
clamped below the ring capacity. -/
def SetPredelay (s : State α F) (ms : ℚ) : State α F :=
  let predelaySamples0 := Int.toNat (Int.floor (ms * s.sampleRate / 1000))
  let n := if predelaySamples0 ≥ s.predelayBufferSize then s.predelayBufferSize - 1
    else predelaySamples0
  { s with predelayMs := ms, predelaySamples := n }

/-- SetLowCut clamps to 20..2000 Hz and pushes the cutoff into both low-cut
filters. -/
def SetLowCut (s : State α F) (freq : ℚ) : State α F :=
  let f0 := if freq < 20 then 20 else freq
  let f1 := if f0 > 2000 then 2000 else f0
  { s with
    lowCutFreq := f1
    lowCutFilterL := svfSetFreq s.lowCutFilterL f1
    lowCutFilterR := svfSetFreq s.lowCutFilterR f1 }

/-- SetHighCut clamps to 1000..20000 Hz and pushes the cutoff into both
high-cut filters. -/
def SetHighCut (s : State α F) (freq : ℚ) : State α F :=
  let f0 := if freq < 1000 then 1000 else freq
  let f1 := if f0 > 20000 then 20000 else f0
  { s with
    highCutFreq := f1
    highCutFilterL := svfSetFreq s.highCutFilterL f1
    highCutFilterR := svfSetFreq s.highCutFilterR f1 }

/-- SetFreeze stores the flag. -/
def SetFreeze (s : State α F) (state : Bool) : State α F :=
  { s with freezeActive := state }

/-- SetStereoWidth clamps the width to 0..2; when the IR is not true stereo
and nonempty it rewrites the right IR from the left one (with the offset and
the rand-derived gain factor of the source; the rand()/RAND_MAX stream is the
randv parameter) and recomputes the spectra.  The size_t cast of the possibly
negative offset is modelled as Int.toNat. -/
def SetStereoWidth (randv : ℕ → ℚ) (s : State α F) (width : ℚ) : State α F :=
  let w0 := if width < 0 then 0 else width
  let w1 := if w0 > 2 then 2 else w0
  let s1 := { s with stereoWidth := w1 }
  if s1.trueStereoIR = false then
    if 0 < s1.irLength then
      if w1 ≠ 1 then
        let newRight : ℕ → α := fun i =>
          if i < s1.irLength then
            let offset := Int.toNat (Int.floor ((i : ℚ) * (1 / 100) * (w1 - 1)))
            let factor := 1 + (1 / 5) * (w1 - 1) * (randv i - 1 / 2)
            let idx := (i + offset) % s1.irLength
            s1.irBuffer idx * ((factor : ℚ) : α)
          else s1.irBufferRight i
        (UpdateIRFrequencyDomain tr ti { s1 with irBufferRight := newRight }).2
      else
        let newRight : ℕ → α := fun i =>
          if i < s1.irLength then s1.irBuffer i else s1.irBufferRight i
        (UpdateIRFrequencyDomain tr ti { s1 with irBufferRight := newRight }).2
    else s1
  else s1

/-- ProcessFFTBlock: forward transform both accumulators, read the results as
interleaved complex data, multiply against the stored spectra (DC and Nyquist
as real-only products), apply the abstracted inverse, and overlap-add half the
result into the circular output buffers starting at the advanced output
position. -/
def ProcessFFTBlock (s : State α F) : State α F :=
  let fftResultL := shyDirect tr ti FFT_SIZE s.inputBufferL
  let fftResultR := shyDirect tr ti FFT_SIZE s.inputBufferR
  let fftBuffer1 : ℕ → α := fun idx =>
    if idx = 0 then fftResultL 0 * s.irFreqReal 0
    else if idx = 1 then fftResultL 1 * s.irFreqReal 1
    else if idx < FFT_SIZE then
      (if idx % 2 = 0 then
        fftResultL (idx / 2 * 2) * s.irFreqReal (idx / 2) -
          fftResultL (idx / 2 * 2 + 1) * s.irFreqImag (idx / 2)
      else
        fftResultL (idx / 2 * 2) * s.irFreqImag (idx / 2) +
          fftResultL (idx / 2 * 2 + 1) * s.irFreqReal (idx / 2))
    else s.fftBuffer idx
  let fftBufferR1 : ℕ → α := fun idx =>
    if idx = 0 then fftResultR 0 * s.irFreqRealRight 0
    else if idx = 1 then fftResultR 1 * s.irFreqRealRight 1
    else if idx < FFT_SIZE then
      (if idx % 2 = 0 then
        fftResultR (idx / 2 * 2) * s.irFreqRealRight (idx / 2) -
          fftResultR (idx / 2 * 2 + 1) * s.irFreqImagRight (idx / 2)
      else
        fftResultR (idx / 2 * 2) * s.irFreqImagRight (idx / 2) +
          fftResultR (idx / 2 * 2 + 1) * s.irFreqRealRight (idx / 2))
    else s.fftBufferR idx
  let tempOutputL := inverseFn fftBuffer1
  let tempOutputR := inverseFn fftBufferR1
  let outL1 := List.foldl (fun buf i =>
      Function.update buf ((s.outputBufferPos + i) % (FFT_SIZE * 2))
        (buf ((s.outputBufferPos + i) % (FFT_SIZE * 2)) + tempOutputL i * (1 / 2 : α)))
    s.outputBufferL (List.range FFT_SIZE)
  let outR1 := List.foldl (fun buf i =>
      Function.update buf ((s.outputBufferPos + i) % (FFT_SIZE * 2))
        (buf ((s.outputBufferPos + i) % (FFT_SIZE * 2)) + tempOutputR i * (1 / 2 : α)))
    s.outputBufferR (List.range FFT_SIZE)
  { s with
    fftBuffer := fftBuffer1
    fftBufferR := fftBufferR1
    outputBufferL := outL1
    outputBufferR := outR1 }

/-- The predelayed sample pair of one Process tick: write the inputs, advance
the write position, then read at the delayed offset from the advanced
position (Process advances before reading). -/
def predelayedPair (s : State α F) (inL inR : α) : α × α :=
  let pbL := Function.update s.predelayBufferL s.predelayBufferPos inL
  let pbR := Function.update s.predelayBufferR s.predelayBufferPos inR
  let predelayBufferPos1 := (s.predelayBufferPos + 1) % s.predelayBufferSize
  let readPos :=
    (predelayBufferPos1 + s.predelayBufferSize - s.predelaySamples) % s.predelayBufferSize
  (pbL readPos, pbR readPos)

/-- Process one stereo sample pair: predelay, optional width pre-processing,
freeze-gated accumulator write, output read-and-clear, cursor advances, block
transform at the boundary, filters, output width processing. -/
def Process (s : State α F) (inL inR : α) : (α × α) × State α F :=
  let pbL := Function.update s.predelayBufferL s.predelayBufferPos inL
  let pbR := Function.update s.predelayBufferR s.predelayBufferPos inR
  let predelayBufferPos1 := (s.predelayBufferPos + 1) % s.predelayBufferSize
  let readPos :=
    (predelayBufferPos1 + s.predelayBufferSize - s.predelaySamples) % s.predelayBufferSize
  let predelayedSampleL := pbL readPos
  let predelayedSampleR := pbR readPos
  let preWidthed := if s.trueStereoIR = false ∧ s.stereoWidth ≠ 1 then
      let mid := (predelayedSampleL + predelayedSampleR) * (1 / 2 : α)
      let side := (predelayedSampleL - predelayedSampleR) * (1 / 2 : α) * ((s.stereoWidth : ℚ) : α)
      (mid + side, mid - side)
    else (predelayedSampleL, predelayedSampleR)
  let inBL := Function.update s.inputBufferL s.inputBufferPos
    (if s.freezeActive then 0 else preWidthed.1)
  let inBR := Function.update s.inputBufferR s.inputBufferPos
    (if s.freezeActive then 0 else preWidthed.2)
  let outSampleL := s.outputBufferL s.outputBufferPos
  let outSampleR := s.outputBufferR s.outputBufferPos
  let obL := Function.update s.outputBufferL s.outputBufferPos 0
  let obR := Function.update s.outputBufferR s.outputBufferPos 0
  let inputBufferPos1 := (s.inputBufferPos + 1) % FFT_SIZE
  let outputBufferPos1 := (s.outputBufferPos + 1) % (FFT_SIZE * 2)
  let s1 := { s with
    predelayBufferL := pbL
    predelayBufferR := pbR
    predelayBufferPos := predelayBufferPos1
    inputBufferL := inBL
    inputBufferR := inBR
    outputBufferL := obL
    outputBufferR := obR
    inputBufferPos := inputBufferPos1
    outputBufferPos := outputBufferPos1 }
  let s2 := if inputBufferPos1 = 0 then ProcessFFTBlock tr ti inverseFn s1 else s1
  let stepL1 := svfStep s2.lowCutFilterL outSampleL
  let stepL2 := svfStep s2.highCutFilterL stepL1.2
  let stepR1 := svfStep s2.lowCutFilterR outSampleR
  let stepR2 := svfStep s2.highCutFilterR stepR1.2
  let widthed := if s.stereoWidth ≠ 1 then
      let mid := (stepL2.2 + stepR2.2) * (1 / 2 : α)
      let side := (stepL2.2 - stepR2.2) * (1 / 2 : α) * ((s.stereoWidth : ℚ) : α)
      (mid + side, mid - side)
    else (stepL2.2, stepR2.2)
  ((widthed.1, widthed.2),
   { s2 with
     lowCutFilterL := stepL1.1
     highCutFilterL := stepL2.1
     lowCutFilterR := stepR1.1
     highCutFilterR := stepR2.1 })

/-- Iterated Process over an input stream: the state before tick t. -/
def run (s0 : State α F) (u : ℕ → α × α) : ℕ → State α F
  | 0 => s0
  | t + 1 =>
      (Process tr ti inverseFn svfStep (run s0 u t) (u t).1 (u t).2).2

/-- Engine state right after construction and Init(48000, maxIrLength):
zeroed buffers, predelay ring capacity 24000 samples (half the sample rate),
default parameters; the filter states are the abstract post-Init value. -/
def initState (f : F) : State α F where
  irBuffer := fun _ => 0
  irBufferRight := fun _ => 0
  irLength := 0
  irFreqReal := fun _ => 0
  irFreqImag := fun _ => 0
  irFreqRealRight := fun _ => 0
  irFreqImagRight := fun _ => 0
  inputBufferL := fun _ => 0
  inputBufferR := fun _ => 0
  inputBufferPos := 0
  outputBufferL := fun _ => 0
  outputBufferR := fun _ => 0
  outputBufferPos := 0
  fftBuffer := fun _ => 0
  fftBufferR := fun _ => 0
  irLengthMultiplier := 1
  predelayMs := 0
  predelaySamples := 0
  sampleRate := 48000
  lowCutFreq := 20
  highCutFreq := 20000
  freezeActive := false
  stereoWidth := 1
  trueStereoIR := false
  predelayBufferL := fun _ => 0
  predelayBufferR := fun _ => 0
  predelayBufferSize := 24000
  predelayBufferPos := 0
  lowCutFilterL := f
  highCutFilterL := f
  lowCutFilterR := f
  highCutFilterR := f

end ConvolutionReverb

/-- Final mixing stage of the legacy AudioCallback: dry/wet mix of the input
with the reverb output, then the output-level gain. -/
def audioCallbackMix (dryWetMix outputLevel : ℚ) (inSample wetSample : α) : α :=
  ((1 - ((dryWetMix : ℚ) : α)) * inSample + ((dryWetMix : ℚ) : α) * wetSample) *
    ((outputLevel : ℚ) : α)

/-! ## Ring buffer lemmas

An abstract model of a circular buffer written once per tick at position
(p0 + t) mod cap: after t ticks every one of the last cap samples is still in
its slot. -/

/-- The buffer contents after t ticks of writing u into the ring. -/
def ringFill {γ : Type} (cap p0 : ℕ) (b0 : ℕ → γ) (u : ℕ → γ) : ℕ → ℕ → γ
  | 0 => b0
  | t + 1 => Function.update (ringFill cap p0 b0 u t) ((p0 + t) % cap) (u t)

/-- Ring slot freshness: for 0 < cap, any tick s among the most recent cap
ticks still has its sample at slot (p0 + s) mod cap. -/
theorem ringFill_read {γ : Type} (cap p0 : ℕ) (b0 u : ℕ → γ) :
    ∀ t s, s < t → t ≤ s + cap → ringFill cap p0 b0 u t ((p0 + s) % cap) = u s := by
  intro t
  induction t with
  | zero => intro s hs _; omega
  | succ t ih =>
      intro s hs hcapw
      by_cases hst : s = t
      · subst hst
        simp [ringFill, Function.update_apply]
      · have hs' : s < t := by omega
        have hne : (p0 + s) % cap ≠ (p0 + t) % cap := by
          intro he
          have hmodeq : (p0 + s) ≡ (p0 + t) [MOD cap] := he
          have hmodeq2 : s ≡ t [MOD cap] := Nat.ModEq.add_left_cancel' p0 hmodeq
          have hdvd : cap ∣ t - s := (Nat.modEq_iff_dvd' (le_of_lt hs')).mp hmodeq2
          have hle : cap ≤ t - s := Nat.le_of_dvd (by omega) hdvd
          omega
        rw [ringFill, Function.update_apply, if_neg hne]
        exact ih s hs' (by omega)

/-- Advancing a reduced ring position by one. -/
theorem ring_pos_step (cap a : ℕ) : ((a % cap) + 1) % cap = (a + 1) % cap :=
  Nat.ModEq.add_right 1 (Nat.mod_modEq a cap)

/-- Index arithmetic of the delayed read: reading K back from the position
after t writes lands on the slot of tick t - K. -/
theorem ring_delayed_index (cap K p0 t : ℕ) (hK : K ≤ t) (hKcap : K < cap) :
    ((p0 + t) % cap + cap - K) % cap = (p0 + (t - K)) % cap := by
  have h1 : (p0 + t) % cap + cap - K = (p0 + t) % cap + (cap - K) := by omega
  have h2 : ((p0 + t) % cap + (cap - K)) % cap = ((p0 + t) + (cap - K)) % cap :=
    Nat.ModEq.add_right (cap - K) (Nat.mod_modEq (p0 + t) cap)
  have h3 : (p0 + t) + (cap - K) = (p0 + (t - K)) + cap := by omega
  rw [h1, h2, h3, Nat.add_mod_right]

/-! ## Projection lemmas for the engine steps -/

namespace PartitionedConvolutionReverb

variable {α F : Type} [Field α]
variable (trE tiE trL tiL : ℕ → α)
variable (svfProcess : F → α → F)
variable (svfHigh svfLow : F → α)

/-- When an IR is loaded, one Process tick writes the input pair into the
predelay ring at the write position, writes the delayed pair into both tier
accumulators at their cursors, and advances all cursors; the delay setting and
the loaded flag are untouched. -/
theorem part_process_state_proj (s : State α F) (hload : s.irLoaded = true) (inL inR : α) :
    ((Process trE tiE trL tiL svfProcess svfHigh svfLow s inL inR).2.irLoaded = true) ∧
    ((Process trE tiE trL tiL svfProcess svfHigh svfLow s inL inR).2.predelayBuffer =
      Function.update s.predelayBuffer s.predelayBufferPos inL) ∧
    ((Process trE tiE trL tiL svfProcess svfHigh svfLow s inL inR).2.predelayBufferRight =
      Function.update s.predelayBufferRight s.predelayBufferPos inR) ∧
    ((Process trE tiE trL tiL svfProcess svfHigh svfLow s inL inR).2.predelayBufferPos =
      (s.predelayBufferPos + 1) % MAX_PREDELAY_SAMPLES) ∧
    ((Process trE tiE trL tiL svfProcess svfHigh svfLow s inL inR).2.predelayInSamples =
      s.predelayInSamples) ∧
    ((Process trE tiE trL tiL svfProcess svfHigh svfLow s inL inR).2.earlyInputBuffer =
      Function.update s.earlyInputBuffer s.earlyInputBufferPos
        (predelayedPair s inL inR).1) ∧
    ((Process trE tiE trL tiL svfProcess svfHigh svfLow s inL inR).2.earlyInputBufferPos =
      if s.earlyInputBufferPos + 1 ≥ EARLY_FFT_SIZE then 0 else s.earlyInputBufferPos + 1) := by
  simp only [Process, predelayedPair, hload]
  norm_num

/-- Invariant of the iterated engine: the predelay ring evolves exactly as the
abstract ring model, the write position walks around the ring, and the delay
setting persists. -/
theorem part_run_predelay_inv (s0 : State α F) (u : ℕ → α × α)
    (hload : s0.irLoaded = true) (hp0 : s0.predelayBufferPos < MAX_PREDELAY_SAMPLES) :
    ∀ t,
      (run trE tiE trL tiL svfProcess svfHigh svfLow s0 u t).irLoaded = true ∧
      (run trE tiE trL tiL svfProcess svfHigh svfLow s0 u t).predelayInSamples =
        s0.predelayInSamples ∧
      (run trE tiE trL tiL svfProcess svfHigh svfLow s0 u t).predelayBufferPos =
        (s0.predelayBufferPos + t) % MAX_PREDELAY_SAMPLES ∧
      (run trE tiE trL tiL svfProcess svfHigh svfLow s0 u t).predelayBuffer =
        ringFill MAX_PREDELAY_SAMPLES s0.predelayBufferPos s0.predelayBuffer
          (fun k => (u k).1) t ∧
      (run trE tiE trL tiL svfProcess svfHigh svfLow s0 u t).predelayBufferRight =
        ringFill MAX_PREDELAY_SAMPLES s0.predelayBufferPos s0.predelayBufferRight
          (fun k => (u k).2) t := by
  intro t
  induction t with
  | zero =>
      refine ⟨hload, rfl, ?_, rfl, rfl⟩
      simpa using (Nat.mod_eq_of_lt hp0).symm
  | succ t ih =>
      obtain ⟨ihload, ihK, ihpos, ihbuf, ihbufR⟩ := ih
      have hp := part_process_state_proj trE tiE trL tiL svfProcess svfHigh svfLow
        (run trE tiE trL tiL svfProcess svfHigh svfLow s0 u t) ihload (u t).1 (u t).2
      obtain ⟨h1, h2, h3, h4, h5, _, _⟩ := hp
      refine ⟨h1, ?_, ?_, ?_, ?_⟩ <;> simp only [run]
      · rw [h5, ihK]
      · rw [h4, ihpos, ring_pos_step]
        rfl
      · rw [h2, ihbuf, ihpos]
        rfl
      · rw [h3, ihbufR, ihpos]
        rfl

end PartitionedConvolutionReverb

namespace ConvolutionReverb

variable {α F : Type} [Field α]
variable (tr ti : ℕ → α)
variable (inverseFn : (ℕ → α) → ℕ → α)
variable (svfStep : F → α → F × α)

/-- One Process tick writes the input pair into the predelay ring at the write
position and advances it; the ring capacity and the delay setting persist
(also through a block transform at a boundary). -/
theorem conv_process_state_proj (s : State α F) (inL inR : α) :
    ((Process tr ti inverseFn svfStep s inL inR).2.predelayBufferL =
      Function.update s.predelayBufferL s.predelayBufferPos inL) ∧
    ((Process tr ti inverseFn svfStep s inL inR).2.predelayBufferR =
      Function.update s.predelayBufferR s.predelayBufferPos inR) ∧
    ((Process tr ti inverseFn svfStep s inL inR).2.predelayBufferPos =
      (s.predelayBufferPos + 1) % s.predelayBufferSize) ∧
    ((Process tr ti inverseFn svfStep s inL inR).2.predelayBufferSize =
      s.predelayBufferSize) ∧
    ((Process tr ti inverseFn svfStep s inL inR).2.predelaySamples =
      s.predelaySamples) := by
  simp only [Process]
  split <;> simp [ProcessFFTBlock]

/-- Invariant of the iterated legacy engine: the predelay ring evolves as the
abstract ring model. -/
theorem conv_run_predelay_inv (s0 : State α F) (u : ℕ → α × α)
    (hp0 : s0.predelayBufferPos < s0.predelayBufferSize) :
    ∀ t,
      (run tr ti inverseFn svfStep s0 u t).predelayBufferSize = s0.predelayBufferSize ∧
      (run tr ti inverseFn svfStep s0 u t).predelaySamples = s0.predelaySamples ∧
      (run tr ti inverseFn svfStep s0 u t).predelayBufferPos =
        (s0.predelayBufferPos + t) % s0.predelayBufferSize ∧
      (run tr ti inverseFn svfStep s0 u t).predelayBufferL =
        ringFill s0.predelayBufferSize s0.predelayBufferPos s0.predelayBufferL
          (fun k => (u k).1) t ∧
      (run tr ti inverseFn svfStep s0 u t).predelayBufferR =
        ringFill s0.predelayBufferSize s0.predelayBufferPos s0.predelayBufferR
          (fun k => (u k).2) t := by
  intro t
  induction t with
  | zero =>
      refine ⟨rfl, rfl, ?_, rfl, rfl⟩
      simpa using (Nat.mod_eq_of_lt hp0).symm
  | succ t ih =>
      obtain ⟨ihsize, ihK, ihpos, ihbuf, ihbufR⟩ := ih
      have hp := conv_process_state_proj tr ti inverseFn svfStep
        (run tr ti inverseFn svfStep s0 u t) (u t).1 (u t).2
      obtain ⟨h1, h2, h3, h4, h5⟩ := hp
      refine ⟨?_, ?_, ?_, ?_, ?_⟩ <;> simp only [run]
      · rw [h4, ihsize]
      · rw [h5, ihK]
      · rw [h3, ihpos, ihsize, ring_pos_step]
        rfl
      · rw [h1, ihbuf, ihpos]
        rfl
      · rw [h2, ihbufR, ihpos]
        rfl

end ConvolutionReverb

/-! ## Claim theorems -/

section Claims

variable {α F : Type} [Field α]
variable (trE tiE trL tiL tr ti : ℕ → α)
variable (inverseFn : (ℕ → α) → ℕ → α)
variable (svfSetFreq svfSetRes svfSetDrive : F → ℚ → F)
variable (svfProcess : F → α → F)
variable (svfHigh svfLow : F → α)
variable (svfStep : F → α → F × α)

/-- C1: the FFT round trip Inverse(Direct(x)) with the zero imaginary part the
engine always supplies does not return x within 1e-4.  At N = 4 with
x = 0,1,0,0 the round trip returns 0, 1/2, 0, 1/2 (Direct drops every
imaginary butterfly term, so the round trip yields the even part of the
signal); the deviation at index 1 is 1/2, far above the claimed 1e-4. -/
theorem c1_fft_roundtrip_violated :
    roundTrip4.1 1 = 1 / 2 ∧ roundTrip4.1 3 = 1 / 2 ∧
    ¬ (∀ i, i < 4 → |roundTrip4.1 i - c1Signal i| ≤ 1 / 10000) := by
  refine ⟨roundTrip4_at_one, roundTrip4_at_three, ?_⟩
  intro h
  have h1 := h 1 (by norm_num)
  rw [roundTrip4_at_one] at h1
  norm_num [c1Signal, abs_le] at h1

/-- C2 counterexample: the claim says every LoadIR call with length 0 returns
false; ConvolutionReverb::LoadIR performs no validation and returns true even
for length 0 (and it overwrites irLength and trueStereoIR on the way). -/
theorem c2_counterexample :
    (ConvolutionReverb.LoadIR (twiddlesReal FFT_SIZE) (twiddlesImag FFT_SIZE)
      (ConvolutionReverb.initState (α := ℝ) (F := Unit) ()) (fun _ => 0) 0).1 = true := by
  simp [ConvolutionReverb.LoadIR, ConvolutionReverb.UpdateIRFrequencyDomain]

/-- C2 amended: PartitionedConvolutionReverb::LoadIR and LoadStereoIR return
false with the state exactly unchanged when length = 0 or length exceeds
MAX_IR_LENGTH, and return true for valid lengths; ConvolutionReverb::LoadIR
and LoadStereoIR perform no validation and return true for every length. -/
theorem c2_loadir_validation (s : PartitionedConvolutionReverb.State α F)
    (sc : ConvolutionReverb.State α F) (buf bufR : ℕ → α) (len : ℕ) :
    ((len = 0 ∨ len > MAX_IR_LENGTH) →
      PartitionedConvolutionReverb.LoadIR trE tiE trL tiL s buf len = (false, s) ∧
      PartitionedConvolutionReverb.LoadStereoIR trE tiE trL tiL s buf bufR len =
        (false, s)) ∧
    (len ≠ 0 → len ≤ MAX_IR_LENGTH →
      (PartitionedConvolutionReverb.LoadIR trE tiE trL tiL s buf len).1 = true ∧
      (PartitionedConvolutionReverb.LoadStereoIR trE tiE trL tiL s buf bufR len).1 =
        true) ∧
    (ConvolutionReverb.LoadIR tr ti sc buf len).1 = true ∧
    (ConvolutionReverb.LoadStereoIR tr ti sc buf bufR len).1 = true := by
  refine ⟨?_, ?_, ?_, ?_⟩
  · intro hbad
    constructor <;>
      simp [PartitionedConvolutionReverb.LoadIR,
        PartitionedConvolutionReverb.LoadStereoIR, hbad]
  · intro h0 hcap
    have hcond : ¬ (len = 0 ∨ len > MAX_IR_LENGTH) := by
      push_neg
      exact ⟨h0, by omega⟩
    constructor <;>
      · simp only [PartitionedConvolutionReverb.LoadIR,
          PartitionedConvolutionReverb.LoadStereoIR, if_neg hcond,
          PartitionedConvolutionReverb.UpdateIRFrequencyDomain]
        rw [apply_ite Prod.fst]
        simp
  · simp [ConvolutionReverb.LoadIR, ConvolutionReverb.UpdateIRFrequencyDomain]
  · simp [ConvolutionReverb.LoadStereoIR, ConvolutionReverb.UpdateIRFrequencyDomain]

/-- C2 witness: the amended theorem applied at length 0 on the initial
partitioned engine state. -/
theorem c2_loadir_validation_witness :
    ((0 = 0 ∨ 0 > MAX_IR_LENGTH) ∧
      PartitionedConvolutionReverb.LoadIR (α := ℚ) (F := Unit)
        (fun _ => 0) (fun _ => 0) (fun _ => 0) (fun _ => 0)
        (PartitionedConvolutionReverb.initState ()) (fun _ => 0) 0 =
        (false, PartitionedConvolutionReverb.initState ())) := by
  refine ⟨Or.inl rfl, ?_⟩
  exact ((c2_loadir_validation (fun _ => 0) (fun _ => 0) (fun _ => 0) (fun _ => 0)
    (fun _ => 0) (fun _ => 0)
    (PartitionedConvolutionReverb.initState ())
    (ConvolutionReverb.initState ()) (fun _ => 0) (fun _ => 0) 0).1 (Or.inl rfl)).1

/-- Clamp-shaped conditional as a minimum (used to relate the source's
explicit ifs to the claim's clamped arithmetic). -/
theorem ite_lt_min (a b : ℕ) : (if a < b then a else b) = min a b := by
  split_ifs <;> omega

/-- Oversize-shaped conditional as a minimum. -/
theorem ite_gt_min (a b : ℕ) : (if a > b then b else a) = min a b := by
  split_ifs <;> omega

/-- Following the claim's words: effectiveLength = floor(irLength x
irLengthFactor), clamped to irLength. -/
def claimEffectiveLength (irLength : ℕ) (factor : ℚ) : ℕ :=
  min (Int.toNat (Int.floor ((irLength : ℚ) * factor))) irLength

/-- Following the claim's words: the early tier consumes samples
[0, earlyBlockSize) of the truncated IR, zero-padded to the early block
size. -/
def claimEarlySlice (src : ℕ → α) (eff : ℕ) : ℕ → α :=
  fun i => if i < min eff EARLY_FFT_SIZE then src i else 0

/-- Following the claim's words: the late tier consumes the remaining samples
starting at earlyBlockSize, truncated to lateBlockSize and zero-padded to the
late block size. -/
def claimLateSlice (src : ℕ → α) (eff : ℕ) : ℕ → α :=
  fun i => if i < min (eff - EARLY_FFT_SIZE) LATE_FFT_SIZE then
    src (EARLY_FFT_SIZE + i) else 0

/-- C4: UpdateIRFrequencyDomain returns true and stores, per channel, exactly
the forward transform of the claim's early slice in the early tier spectrum
and of the claim's late slice in the late tier spectrum (imaginary parts
zero), with effectiveLength = floor(irLength x irLengthFactor) clamped to
irLength.  The right channel reads the right IR for a true-stereo load and the
mono IR otherwise. -/
theorem c4_update_ir_spectra (s : PartitionedConvolutionReverb.State α F) :
    (PartitionedConvolutionReverb.UpdateIRFrequencyDomain trE tiE trL tiL s).1 = true ∧
    ((PartitionedConvolutionReverb.UpdateIRFrequencyDomain trE tiE trL tiL s).2.earlyIrFreqReal =
      fun i => if i < EARLY_FFT_SIZE then
        shyDirect trE tiE EARLY_FFT_SIZE
          (claimEarlySlice s.irBuffer (claimEffectiveLength s.irLength s.irLengthFactor)) i
      else 0) ∧
    ((PartitionedConvolutionReverb.UpdateIRFrequencyDomain trE tiE trL tiL s).2.earlyIrFreqRealRight =
      fun i => if i < EARLY_FFT_SIZE then
        shyDirect trE tiE EARLY_FFT_SIZE
          (claimEarlySlice (fun j => if s.trueStereoIR then s.irBufferRight j else s.irBuffer j)
            (claimEffectiveLength s.irLength s.irLengthFactor)) i
      else 0) ∧
    ((PartitionedConvolutionReverb.UpdateIRFrequencyDomain trE tiE trL tiL s).2.lateIrFreqReal =
      fun i => if i < LATE_FFT_SIZE then
        shyDirect trL tiL LATE_FFT_SIZE
          (claimLateSlice s.irBuffer (claimEffectiveLength s.irLength s.irLengthFactor)) i
      else 0) ∧
    ((PartitionedConvolutionReverb.UpdateIRFrequencyDomain trE tiE trL tiL s).2.lateIrFreqRealRight =
      fun i => if i < LATE_FFT_SIZE then
        shyDirect trL tiL LATE_FFT_SIZE
          (claimLateSlice (fun j => if s.trueStereoIR then s.irBufferRight j else s.irBuffer j)
            (claimEffectiveLength s.irLength s.irLengthFactor)) i
      else 0) ∧
    ((PartitionedConvolutionReverb.UpdateIRFrequencyDomain trE tiE trL tiL s).2.earlyIrFreqImag =
      fun _ => 0) ∧
    ((PartitionedConvolutionReverb.UpdateIRFrequencyDomain trE tiE trL tiL s).2.earlyIrFreqImagRight =
      fun _ => 0) ∧
    ((PartitionedConvolutionReverb.UpdateIRFrequencyDomain trE tiE trL tiL s).2.lateIrFreqImag =
      fun _ => 0) ∧
    ((PartitionedConvolutionReverb.UpdateIRFrequencyDomain trE tiE trL tiL s).2.lateIrFreqImagRight =
      fun _ => 0) := by
  have hef : (if Int.toNat (Int.floor ((s.irLength : ℚ) * s.irLengthFactor)) > s.irLength
      then s.irLength else Int.toNat (Int.floor ((s.irLength : ℚ) * s.irLengthFactor))) =
      claimEffectiveLength s.irLength s.irLengthFactor := by
    simp only [claimEffectiveLength]
    split_ifs <;> omega
  simp only [PartitionedConvolutionReverb.UpdateIRFrequencyDomain, hef]
  set E := claimEffectiveLength s.irLength s.irLengthFactor with hE
  have hminE : (if E < EARLY_FFT_SIZE then E else EARLY_FFT_SIZE) = min E EARLY_FFT_SIZE := by
    split_ifs <;> omega
  have hminL : (if E - EARLY_FFT_SIZE > LATE_FFT_SIZE then LATE_FFT_SIZE
      else E - EARLY_FFT_SIZE) = min (E - EARLY_FFT_SIZE) LATE_FFT_SIZE := by
    split_ifs <;> omega
  have hslE1 : (fun i => if i < (if E < EARLY_FFT_SIZE then E else EARLY_FFT_SIZE)
      then s.irBuffer i else 0) = claimEarlySlice s.irBuffer E := by
    funext i
    simp only [claimEarlySlice, hminE]
  have hslE2 : (fun i => if i < (if E < EARLY_FFT_SIZE then E else EARLY_FFT_SIZE)
      then (if s.trueStereoIR then s.irBufferRight i else s.irBuffer i) else 0) =
      claimEarlySlice (fun j => if s.trueStereoIR then s.irBufferRight j else s.irBuffer j)
        E := by
    funext i
    simp only [claimEarlySlice, hminE]
  have hslL1 : (fun i => if i < (if E - EARLY_FFT_SIZE > LATE_FFT_SIZE then LATE_FFT_SIZE
      else E - EARLY_FFT_SIZE) then s.irBuffer (EARLY_FFT_SIZE + i) else 0) =
      claimLateSlice s.irBuffer E := by
    funext i
    simp only [claimLateSlice, hminL]
  have hslL2 : (fun i => if i < (if E - EARLY_FFT_SIZE > LATE_FFT_SIZE then LATE_FFT_SIZE
      else E - EARLY_FFT_SIZE) then
        (if s.trueStereoIR then s.irBufferRight (EARLY_FFT_SIZE + i)
         else s.irBuffer (EARLY_FFT_SIZE + i)) else 0) =
      claimLateSlice (fun j => if s.trueStereoIR then s.irBufferRight j else s.irBuffer j)
        E := by
    funext i
    simp only [claimLateSlice, hminL]
  simp only [hslE1, hslE2, hslL1, hslL2]
  by_cases hc : EARLY_FFT_SIZE < E
  · simp only [if_pos hc, and_self]
  · simp only [if_neg hc]
    have hdeg : ∀ src : ℕ → α, claimLateSlice src E = fun _ => (0 : α) := by
      intro src
      funext j
      have hm0 : min (E - EARLY_FFT_SIZE) LATE_FFT_SIZE = 0 := by omega
      simp [claimLateSlice, hm0]
    have hzero : ∀ src : ℕ → α,
        (fun i => if i < LATE_FFT_SIZE then
          shyDirect trL tiL LATE_FFT_SIZE (claimLateSlice src E) i else 0) =
          fun _ => (0 : α) := by
      intro src
      rw [hdeg src, shyDirect_zero]
      funext x
      simp
    refine ⟨trivial, trivial, trivial, ?_, ?_, trivial, trivial, trivial, trivial⟩
    · exact (hzero s.irBuffer).symm
    · exact
        (hzero (fun j => if s.trueStereoIR then s.irBufferRight j else s.irBuffer j)).symm

/-- C3 counterexample: the claim says the pair consumed at tick t equals the
input written at tick t - K.  In ConvolutionReverb with K = 0 the very first
tick consumes the stale slot after the advanced write position (a full-buffer
delay), not the sample just written: the consumed value is 0, the claim
demands the input 1. -/
theorem c3_counterexample :
    (ConvolutionReverb.predelayedPair
      (ConvolutionReverb.initState (α := ℝ) (F := Unit) ()) 1 1).1 = 0 ∧
    ((0 : ℝ) ≠ 1) := by
  constructor
  · norm_num [ConvolutionReverb.predelayedPair, ConvolutionReverb.initState,
      Function.update_apply]
  · norm_num

/-- C3 amended: in the partitioned engine the predelayed pair consumed at tick
t is exactly the input pair of tick t - K (read happens before the write
position advances); in ConvolutionReverb the read happens after the advance,
so for K at least 1 the consumed pair is the input of tick t + 1 - K, an
off-by-one against the claim (and K = 0 yields the oldest slot instead). -/
theorem c3_predelay_read (s0 : PartitionedConvolutionReverb.State α F)
    (sc0 : ConvolutionReverb.State α F) (u v : ℕ → α × α) (t K Kc : ℕ)
    (hload : s0.irLoaded = true)
    (hp0 : s0.predelayBufferPos < MAX_PREDELAY_SAMPLES)
    (hK : s0.predelayInSamples = K)
    (hKcap : K < MAX_PREDELAY_SAMPLES)
    (hKt : K ≤ t)
    (hp0c : sc0.predelayBufferPos < sc0.predelayBufferSize)
    (hKc : sc0.predelaySamples = Kc)
    (hKc1 : 1 ≤ Kc)
    (hKccap : Kc < sc0.predelayBufferSize)
    (hKct : Kc ≤ t + 1) :
    PartitionedConvolutionReverb.predelayedPair
      (PartitionedConvolutionReverb.run trE tiE trL tiL svfProcess svfHigh svfLow s0 u t)
      (u t).1 (u t).2 = u (t - K) ∧
    ConvolutionReverb.predelayedPair
      (ConvolutionReverb.run tr ti inverseFn svfStep sc0 v t)
      (v t).1 (v t).2 = v (t + 1 - Kc) := by
  constructor
  · obtain ⟨_, hKs, hpos, hbuf, hbufR⟩ :=
      PartitionedConvolutionReverb.part_run_predelay_inv trE tiE trL tiL svfProcess svfHigh
        svfLow s0 u hload hp0 t
    have hL := ringFill_read MAX_PREDELAY_SAMPLES s0.predelayBufferPos
      s0.predelayBuffer (fun k => (u k).1) (t + 1) (t - K) (by omega) (by omega)
    have hR := ringFill_read MAX_PREDELAY_SAMPLES s0.predelayBufferPos
      s0.predelayBufferRight (fun k => (u k).2) (t + 1) (t - K) (by omega) (by omega)
    simp only [ringFill] at hL hR
    simp only [PartitionedConvolutionReverb.predelayedPair]
    rw [hbuf, hbufR, hpos, hKs, hK,
      ring_delayed_index MAX_PREDELAY_SAMPLES K s0.predelayBufferPos t hKt hKcap,
      hL, hR]
  · obtain ⟨hsize, hKs, hpos, hbuf, hbufR⟩ :=
      ConvolutionReverb.conv_run_predelay_inv tr ti inverseFn svfStep sc0 v hp0c t
    have hL := ringFill_read sc0.predelayBufferSize sc0.predelayBufferPos
      sc0.predelayBufferL (fun k => (v k).1) (t + 1) (t + 1 - Kc) (by omega) (by omega)
    have hR := ringFill_read sc0.predelayBufferSize sc0.predelayBufferPos
      sc0.predelayBufferR (fun k => (v k).2) (t + 1) (t + 1 - Kc) (by omega) (by omega)
    simp only [ringFill] at hL hR
    simp only [ConvolutionReverb.predelayedPair]
    rw [hbuf, hbufR, hpos, hsize, hKs, hKc, ring_pos_step, Nat.add_assoc,
      ring_delayed_index sc0.predelayBufferSize Kc sc0.predelayBufferPos (t + 1) hKct
        (by omega),
      hL, hR]

/-- C3 witness: the amended theorem at K = 2 on the partitioned side, at tick
3: the pair consumed at tick 3 is the input of tick 1. -/
theorem c3_predelay_read_witness :
    ({ PartitionedConvolutionReverb.initState (α := ℚ) (F := Unit) () with
        irLoaded := true, predelayInSamples := 2 } :
      PartitionedConvolutionReverb.State ℚ Unit).irLoaded = true ∧
    PartitionedConvolutionReverb.predelayedPair
      (PartitionedConvolutionReverb.run (fun _ => 0) (fun _ => 0) (fun _ => 0)
        (fun _ => 0) (fun f _ => f) (fun _ => 0) (fun _ => 0)
        { PartitionedConvolutionReverb.initState () with
            irLoaded := true, predelayInSamples := 2 }
        (fun k => ((k : ℚ), (k : ℚ) + 10)) 3)
      (3 : ℚ) ((3 : ℚ) + 10) = ((1 : ℚ), (1 : ℚ) + 10) := by
  constructor
  · rfl
  · have h := (c3_predelay_read (α := ℚ) (F := Unit)
      (fun _ => 0) (fun _ => 0) (fun _ => 0) (fun _ => 0) (fun _ => 0) (fun _ => 0)
      (fun _ => 0) (fun f _ => f) (fun _ => 0) (fun _ => 0) (fun f _ => (f, 0))
      { PartitionedConvolutionReverb.initState () with
          irLoaded := true, predelayInSamples := 2 }
      { ConvolutionReverb.initState () with predelaySamples := 1 }
      (fun k => ((k : ℚ), (k : ℚ) + 10)) (fun k => ((k : ℚ), (k : ℚ) + 10))
      3 2 1 rfl
      (by norm_num [PartitionedConvolutionReverb.initState, MAX_PREDELAY_SAMPLES])
      rfl
      (by norm_num [MAX_PREDELAY_SAMPLES]) (by norm_num)
      (by norm_num [ConvolutionReverb.initState]) rfl (by norm_num)
      (by norm_num [ConvolutionReverb.initState]) (by norm_num)).1
    have h3 : (3 : ℕ) - 2 = 1 := by norm_num
    rw [h3] at h
    simpa using h

/-- C5 counterexample: the claim says every setter clamps into the documented
range, with SetLowCut(5) yielding an effective 20 Hz; the partitioned engine's
SetLowCut stores 5 unclamped (below the documented 20 Hz minimum). -/
theorem c5_counterexample :
    (PartitionedConvolutionReverb.SetLowCut (α := ℚ) (F := Unit)
      (fun f _ => f) (fun f _ => f) (fun f _ => f)
      (PartitionedConvolutionReverb.initState ()) 5).lowCutFreq = 5 ∧
    ¬ ((20 : ℚ) ≤ 5) := by
  constructor
  · rfl
  · norm_num

/-- C5 amended: in ConvolutionReverb the setters SetIRLength, SetLowCut,
SetHighCut and SetStereoWidth clamp their stored parameter into the documented
range for every input, and the claim's concrete cases hold there:
SetLowCut(5) stores 20, SetStereoWidth(3) stores 2, SetIRLength(-0.2) stores
0.  The PartitionedConvolutionReverb setters (dry/wet, predelay ms, IR length
factor, low cut, high cut, stereo width) store their arguments unclamped. -/
theorem c5_setters_clamp (sc : ConvolutionReverb.State α F) (v : ℚ) (randv : ℕ → ℚ) :
    (0 ≤ (ConvolutionReverb.SetIRLength tr ti sc v).irLengthMultiplier ∧
      (ConvolutionReverb.SetIRLength tr ti sc v).irLengthMultiplier ≤ 1) ∧
    (20 ≤ (ConvolutionReverb.SetLowCut svfSetFreq sc v).lowCutFreq ∧
      (ConvolutionReverb.SetLowCut svfSetFreq sc v).lowCutFreq ≤ 2000) ∧
    (1000 ≤ (ConvolutionReverb.SetHighCut svfSetFreq sc v).highCutFreq ∧
      (ConvolutionReverb.SetHighCut svfSetFreq sc v).highCutFreq ≤ 20000) ∧
    (0 ≤ (ConvolutionReverb.SetStereoWidth tr ti randv sc v).stereoWidth ∧
      (ConvolutionReverb.SetStereoWidth tr ti randv sc v).stereoWidth ≤ 2) ∧
    (ConvolutionReverb.SetLowCut svfSetFreq sc 5).lowCutFreq = 20 ∧
    (ConvolutionReverb.SetStereoWidth tr ti randv sc 3).stereoWidth = 2 ∧
    (ConvolutionReverb.SetIRLength tr ti sc (-(1 / 5))).irLengthMultiplier = 0 := by
  have hupd : ∀ s1 : ConvolutionReverb.State α F,
      (ConvolutionReverb.UpdateIRFrequencyDomain tr ti s1).2.irLengthMultiplier =
        s1.irLengthMultiplier :=
    fun _ => rfl
  have hlen : ∀ w : ℚ, (ConvolutionReverb.SetIRLength tr ti sc w).irLengthMultiplier =
      (if (if w < 0 then 0 else w) > 1 then 1 else (if w < 0 then 0 else w)) := by
    intro w
    simp only [ConvolutionReverb.SetIRLength]
    by_cases h : (if (if w < 0 then 0 else w) > 1 then 1 else (if w < 0 then 0 else w)) ≠
        sc.irLengthMultiplier
    · rw [if_pos h, hupd _]
    · rw [if_neg h]
      exact (not_not.mp h).symm
  have hwidth : ∀ w : ℚ, (ConvolutionReverb.SetStereoWidth tr ti randv sc w).stereoWidth =
      (if (if w < 0 then 0 else w) > 2 then 2 else (if w < 0 then 0 else w)) := by
    intro w
    simp only [ConvolutionReverb.SetStereoWidth]
    split_ifs <;> rfl
  have hlow : ∀ w : ℚ, (ConvolutionReverb.SetLowCut svfSetFreq sc w).lowCutFreq =
      (if (if w < 20 then 20 else w) > 2000 then 2000 else (if w < 20 then 20 else w)) := by
    intro w
    simp only [ConvolutionReverb.SetLowCut]
  have hhigh : ∀ w : ℚ, (ConvolutionReverb.SetHighCut svfSetFreq sc w).highCutFreq =
      (if (if w < 1000 then 1000 else w) > 20000 then 20000
       else (if w < 1000 then 1000 else w)) := by
    intro w
    simp only [ConvolutionReverb.SetHighCut]
  refine ⟨?_, ?_, ?_, ?_, ?_, ?_, ?_⟩
  · rw [hlen v]
    constructor <;> (split_ifs <;> linarith)
  · rw [hlow v]
    constructor <;> (split_ifs <;> linarith)
  · rw [hhigh v]
    constructor <;> (split_ifs <;> linarith)
  · rw [hwidth v]
    constructor <;> (split_ifs <;> linarith)
  · rw [hlow 5]
    norm_num
  · rw [hwidth 3]
    norm_num
  · rw [hlen (-(1 / 5))]
    norm_num

/-- The filtered and width-processed wet pair of one partitioned Process
tick: the tier outputs after any boundary blocks, summed, filtered through the
low-cut (high-pass tap) and high-cut (low-pass tap) filters, then width
processed.  This mirrors the wet path of Process ahead of the dry/wet mix. -/
def partWetPair (s : PartitionedConvolutionReverb.State α F) (_inL inR : α) : α × α :=
  let pbR := Function.update s.predelayBufferRight s.predelayBufferPos inR
  let delayedPos :=
    (s.predelayBufferPos + MAX_PREDELAY_SAMPLES - s.predelayInSamples) % MAX_PREDELAY_SAMPLES
  let delayedR := pbR delayedPos
  let earlyInR := Function.update s.earlyInputBufferRight s.earlyInputBufferPos delayedR
  let lateInR := Function.update s.lateInputBufferRight s.lateInputBufferPos delayedR
  let earlyPos1 := s.earlyInputBufferPos + 1
  let latePos1 := s.lateInputBufferPos + 1
  let earlyRightResult := PartitionedConvolutionReverb.convolveBlock trE tiE EARLY_FFT_SIZE
    earlyInR s.earlyIrFreqRealRight s.earlyIrFreqImagRight
  let earlyOut1 := if earlyPos1 ≥ EARLY_FFT_SIZE then
    PartitionedConvolutionReverb.overlapAdd EARLY_FFT_SIZE s.earlyOutputBuffer
      earlyRightResult else s.earlyOutputBuffer
  let earlyOutR1 := if earlyPos1 ≥ EARLY_FFT_SIZE then
    PartitionedConvolutionReverb.overlapAdd EARLY_FFT_SIZE s.earlyOutputBufferRight
      earlyRightResult else s.earlyOutputBufferRight
  let lateRightResult := PartitionedConvolutionReverb.convolveBlock trL tiL LATE_FFT_SIZE
    lateInR s.lateIrFreqRealRight s.lateIrFreqImagRight
  let lateOut1 := if latePos1 ≥ LATE_FFT_SIZE then
    PartitionedConvolutionReverb.overlapAdd LATE_FFT_SIZE s.lateOutputBuffer
      lateRightResult else s.lateOutputBuffer
  let lateOutR1 := if latePos1 ≥ LATE_FFT_SIZE then
    PartitionedConvolutionReverb.overlapAdd LATE_FFT_SIZE s.lateOutputBufferRight
      lateRightResult else s.lateOutputBufferRight
  let wetL := earlyOut1 0 + lateOut1 0
  let wetR := earlyOutR1 0 + lateOutR1 0
  let lowL := svfProcess s.lowCutFilterL wetL
  let filteredL1 := svfHigh lowL
  let highL := svfProcess s.highCutFilterL filteredL1
  let filteredL2 := svfLow highL
  let lowR := svfProcess s.lowCutFilterR wetR
  let filteredR1 := svfHigh lowR
  let highR := svfProcess s.highCutFilterR filteredR1
  let filteredR2 := svfLow highR
  if s.stereoWidth ≠ 1 then
    let mid := (filteredL2 + filteredR2) * (1 / 2 : α)
    let side := (filteredL2 - filteredR2) * (1 / 2 : α) * ((s.stereoWidth : ℚ) : α)
    (mid + side, mid - side)
  else (filteredL2, filteredR2)

/-- C6 counterexample: the claim says the final output is
in(1-dryWet) + wet dryWet, equal to the input when dryWet = 0; the legacy
AudioCallback multiplies that mix by outputLevel, so with dryWet = 0 and
outputLevel = 1/2 the output of input 1 is 1/2, not 1. -/
theorem c6_counterexample :
    audioCallbackMix (α := ℝ) 0 (1 / 2) 1 0 = 1 / 2 ∧ ((1 / 2 : ℝ) ≠ 1) := by
  constructor
  · norm_num [audioCallbackMix]
  · norm_num

/-- C6 amended: in the partitioned engine (with an IR loaded) the output pair
is exactly in(1-dryWet) + wet dryWet where wet is the filtered,
width-processed wet pair; dryWet = 0 gives the input pair back exactly and
dryWet = 1 gives the wet pair exactly.  The legacy AudioCallback applies the
same mix but multiplies the result by the outputLevel gain, so its output
equals the input at dryWet = 0 only when outputLevel is 1. -/
theorem c6_mix (s : PartitionedConvolutionReverb.State α F) (inL inR : α)
    (hload : s.irLoaded = true) :
    ((PartitionedConvolutionReverb.Process trE tiE trL tiL svfProcess svfHigh svfLow
        s inL inR).1.1 =
      inL * (1 - ((s.dryWet : ℚ) : α)) +
        (partWetPair trE tiE trL tiL svfProcess svfHigh svfLow s inL inR).1 *
          ((s.dryWet : ℚ) : α)) ∧
    ((PartitionedConvolutionReverb.Process trE tiE trL tiL svfProcess svfHigh svfLow
        s inL inR).1.2 =
      inR * (1 - ((s.dryWet : ℚ) : α)) +
        (partWetPair trE tiE trL tiL svfProcess svfHigh svfLow s inL inR).2 *
          ((s.dryWet : ℚ) : α)) ∧
    (s.dryWet = 0 →
      (PartitionedConvolutionReverb.Process trE tiE trL tiL svfProcess svfHigh svfLow
        s inL inR).1 = (inL, inR)) ∧
    (s.dryWet = 1 →
      (PartitionedConvolutionReverb.Process trE tiE trL tiL svfProcess svfHigh svfLow
        s inL inR).1 =
        partWetPair trE tiE trL tiL svfProcess svfHigh svfLow s inL inR) := by
  refine ⟨?_, ?_, ?_, ?_⟩
  · simp only [PartitionedConvolutionReverb.Process, partWetPair, hload]
    norm_num
  · simp only [PartitionedConvolutionReverb.Process, partWetPair, hload]
    norm_num
  · intro h0
    simp only [PartitionedConvolutionReverb.Process, hload, h0]
    norm_num
  · intro h1
    simp only [PartitionedConvolutionReverb.Process, partWetPair, hload, h1]
    norm_num

/-- C6 witness: with dryWet = 0 and an IR loaded, the partitioned engine's
tick output equals the input pair. -/
theorem c6_mix_witness :
    ({ PartitionedConvolutionReverb.initState (α := ℚ) (F := Unit) () with
        irLoaded := true, dryWet := 0 } :
      PartitionedConvolutionReverb.State ℚ Unit).irLoaded = true ∧
    (PartitionedConvolutionReverb.Process (fun _ => 0) (fun _ => 0) (fun _ => 0)
      (fun _ => 0) (fun f _ => f) (fun _ => 0) (fun _ => 0)
      { PartitionedConvolutionReverb.initState () with irLoaded := true, dryWet := 0 }
      2 3).1 = ((2 : ℚ), (3 : ℚ)) := by
  refine ⟨rfl, ?_⟩
  exact (c6_mix (fun _ => 0) (fun _ => 0) (fun _ => 0) (fun _ => 0) (fun f _ => f)
    (fun _ => 0) (fun _ => 0)
    { PartitionedConvolutionReverb.initState () with irLoaded := true, dryWet := 0 }
    2 3 rfl).2.2.1 rfl

/-- C7 counterexample: the claim says that on a freeze tick the value written
into each tier accumulator is 0 regardless of the incoming sample.  In the
partitioned engine freeze only zeroes the engine input (the callback calls
Process(0,0)); with predelay of 1 sample, after a tick with input 1 the next
tick - frozen - writes the predelayed remnant 1, not 0, into the early
accumulator slot 1. -/
theorem c7_counterexample :
    ((PartitionedConvolutionReverb.Process (α := ℚ) (F := Unit)
        (fun _ => 0) (fun _ => 0) (fun _ => 0) (fun _ => 0)
        (fun f _ => f) (fun _ => 0) (fun _ => 0)
        (PartitionedConvolutionReverb.Process (fun _ => 0) (fun _ => 0) (fun _ => 0)
          (fun _ => 0) (fun f _ => f) (fun _ => 0) (fun _ => 0)
          { PartitionedConvolutionReverb.initState () with
              irLoaded := true, predelayInSamples := 1 } 1 1).2
        0 0).2.earlyInputBuffer 1 = 1) ∧ ((1 : ℚ) ≠ 0) := by
  constructor
  · norm_num [PartitionedConvolutionReverb.Process,
      PartitionedConvolutionReverb.initState, Function.update_apply,
      MAX_PREDELAY_SAMPLES, EARLY_FFT_SIZE, LATE_FFT_SIZE]
  · norm_num

/-- C7 amended: in ConvolutionReverb (where the freeze gate sits inside
Process, after the predelay read) a frozen tick writes exactly 0 into both
input accumulators at the write cursor regardless of the incoming pair, while
the tick output pair, the predelay ring, every cursor and all filter states
evolve exactly as in the unfrozen tick.  In the partitioned engine freeze zeros
the input ahead of the predelay, so nonzero predelayed remnants still enter
the accumulators for delaySamples ticks. -/
theorem c7_freeze_zero_write (s : ConvolutionReverb.State α F) (inL inR : α) :
    ((ConvolutionReverb.Process tr ti inverseFn svfStep
        { s with freezeActive := true } inL inR).2.inputBufferL s.inputBufferPos = 0) ∧
    ((ConvolutionReverb.Process tr ti inverseFn svfStep
        { s with freezeActive := true } inL inR).2.inputBufferR s.inputBufferPos = 0) ∧
    ((ConvolutionReverb.Process tr ti inverseFn svfStep
        { s with freezeActive := true } inL inR).1 =
      (ConvolutionReverb.Process tr ti inverseFn svfStep
        { s with freezeActive := false } inL inR).1) ∧
    ((ConvolutionReverb.Process tr ti inverseFn svfStep
        { s with freezeActive := true } inL inR).2.predelayBufferL =
      (ConvolutionReverb.Process tr ti inverseFn svfStep
        { s with freezeActive := false } inL inR).2.predelayBufferL) ∧
    ((ConvolutionReverb.Process tr ti inverseFn svfStep
        { s with freezeActive := true } inL inR).2.predelayBufferR =
      (ConvolutionReverb.Process tr ti inverseFn svfStep
        { s with freezeActive := false } inL inR).2.predelayBufferR) ∧
    ((ConvolutionReverb.Process tr ti inverseFn svfStep
        { s with freezeActive := true } inL inR).2.predelayBufferPos =
      (ConvolutionReverb.Process tr ti inverseFn svfStep
        { s with freezeActive := false } inL inR).2.predelayBufferPos) ∧
    ((ConvolutionReverb.Process tr ti inverseFn svfStep
        { s with freezeActive := true } inL inR).2.inputBufferPos =
      (ConvolutionReverb.Process tr ti inverseFn svfStep
        { s with freezeActive := false } inL inR).2.inputBufferPos) ∧
    ((ConvolutionReverb.Process tr ti inverseFn svfStep
        { s with freezeActive := true } inL inR).2.outputBufferPos =
      (ConvolutionReverb.Process tr ti inverseFn svfStep
        { s with freezeActive := false } inL inR).2.outputBufferPos) ∧
    ((ConvolutionReverb.Process tr ti inverseFn svfStep
        { s with freezeActive := true } inL inR).2.lowCutFilterL =
      (ConvolutionReverb.Process tr ti inverseFn svfStep
        { s with freezeActive := false } inL inR).2.lowCutFilterL) ∧
    ((ConvolutionReverb.Process tr ti inverseFn svfStep
        { s with freezeActive := true } inL inR).2.highCutFilterL =
      (ConvolutionReverb.Process tr ti inverseFn svfStep
        { s with freezeActive := false } inL inR).2.highCutFilterL) ∧
    ((ConvolutionReverb.Process tr ti inverseFn svfStep
        { s with freezeActive := true } inL inR).2.lowCutFilterR =
      (ConvolutionReverb.Process tr ti inverseFn svfStep
        { s with freezeActive := false } inL inR).2.lowCutFilterR) ∧
    ((ConvolutionReverb.Process tr ti inverseFn svfStep
        { s with freezeActive := true } inL inR).2.highCutFilterR =
      (ConvolutionReverb.Process tr ti inverseFn svfStep
        { s with freezeActive := false } inL inR).2.highCutFilterR) := by
  simp only [ConvolutionReverb.Process, ConvolutionReverb.ProcessFFTBlock]
  by_cases hb : (s.inputBufferPos + 1) % FFT_SIZE = 0 <;>
    simp [hb, Function.update_apply]

/-- The partitioned engine's stored tier spectra, as one tuple. -/
def partSpectra (s : PartitionedConvolutionReverb.State α F) :
    (ℕ → α) × (ℕ → α) × (ℕ → α) × (ℕ → α) × (ℕ → α) × (ℕ → α) × (ℕ → α) × (ℕ → α) :=
  (s.earlyIrFreqReal, s.earlyIrFreqImag, s.earlyIrFreqRealRight, s.earlyIrFreqImagRight,
   s.lateIrFreqReal, s.lateIrFreqImag, s.lateIrFreqRealRight, s.lateIrFreqImagRight)

/-- The legacy engine's stored spectra, as one tuple. -/
def convSpectra (s : ConvolutionReverb.State α F) :
    (ℕ → α) × (ℕ → α) × (ℕ → α) × (ℕ → α) :=
  (s.irFreqReal, s.irFreqImag, s.irFreqRealRight, s.irFreqImagRight)

/-- Helper for the C8 counterexample: when the stored IR is a single sample c
at index 0 with unit length factor, UpdateIRFrequencyDomain stores c in bin 0
of the right spectrum (the forward transform of a scaled impulse is the
constant spectrum, for any twiddle table). -/
theorem conv_update_right_impulse {F : Type} (tr ti : ℕ → ℝ)
    (u : ConvolutionReverb.State ℝ F) (c : ℝ)
    (hlen : u.irLength = 1) (hmult : u.irLengthMultiplier = 1)
    (hbuf : u.irBufferRight 0 = c) :
    (ConvolutionReverb.UpdateIRFrequencyDomain tr ti u).2.irFreqRealRight 0 = c := by
  have hone : ((u.irLength : ℚ) * u.irLengthMultiplier) = 1 := by
    rw [hlen, hmult]
    norm_num
  have htmp : (fun i => if i <
      (if Int.toNat (Int.floor ((u.irLength : ℚ) * u.irLengthMultiplier)) > FFT_SIZE
        then FFT_SIZE
        else Int.toNat (Int.floor ((u.irLength : ℚ) * u.irLengthMultiplier)))
      then u.irBufferRight i else 0) = fun i => if i = 0 then c else 0 := by
    funext i
    rw [hone]
    simp only [Int.floor_one, Int.toNat_one]
    rcases Nat.eq_zero_or_pos i with h0 | hpos
    · subst h0
      simpa [FFT_SIZE] using hbuf
    · rw [if_neg (by norm_num [FFT_SIZE]; omega), if_neg (by omega)]
  simp only [ConvolutionReverb.UpdateIRFrequencyDomain, htmp]
  rw [show FFT_SIZE = 2 ^ 10 by norm_num [FFT_SIZE]]
  rw [shyDirect_impulse]
  norm_num

/-- C8 counterexample: the claim says every setter other than SetIRLength
leaves the stored spectra unchanged.  After loading the one-sample mono IR
  [1], ConvolutionReverb::SetStereoWidth(2) (with a rand stream reading 0)
rewrites the right IR to [0.9] and recomputes the spectra: bin 0 of the right
spectrum changes from 1 to 0.9. -/
theorem c8_counterexample :
    ((ConvolutionReverb.SetStereoWidth (twiddlesReal FFT_SIZE) (twiddlesImag FFT_SIZE)
        (fun _ => 0)
        (ConvolutionReverb.LoadIR (twiddlesReal FFT_SIZE) (twiddlesImag FFT_SIZE)
          (ConvolutionReverb.initState (α := ℝ) (F := Unit) ())
          (fun i => if i = 0 then 1 else 0) 1).2
        2).irFreqRealRight 0 = 9 / 10) ∧
    ((ConvolutionReverb.LoadIR (twiddlesReal FFT_SIZE) (twiddlesImag FFT_SIZE)
        (ConvolutionReverb.initState (α := ℝ) (F := Unit) ())
        (fun i => if i = 0 then 1 else 0) 1).2.irFreqRealRight 0 = 1) ∧
    ((9 / 10 : ℝ) ≠ 1) := by
  have h1 : ((ConvolutionReverb.LoadIR (twiddlesReal FFT_SIZE) (twiddlesImag FFT_SIZE)
      (ConvolutionReverb.initState (α := ℝ) (F := Unit) ())
      (fun i => if i = 0 then 1 else 0) 1).2).trueStereoIR = false := rfl
  have h2 : ((ConvolutionReverb.LoadIR (twiddlesReal FFT_SIZE) (twiddlesImag FFT_SIZE)
      (ConvolutionReverb.initState (α := ℝ) (F := Unit) ())
      (fun i => if i = 0 then 1 else 0) 1).2).irLength = 1 := rfl
  have h3 : ((ConvolutionReverb.LoadIR (twiddlesReal FFT_SIZE) (twiddlesImag FFT_SIZE)
      (ConvolutionReverb.initState (α := ℝ) (F := Unit) ())
      (fun i => if i = 0 then 1 else 0) 1).2).irBuffer =
      fun i => if i < 1 then (if i = 0 then (1 : ℝ) else 0) else 0 := rfl
  refine ⟨?_, ?_, by norm_num⟩
  · simp only [ConvolutionReverb.SetStereoWidth, h1, h2]
    norm_num
    exact conv_update_right_impulse _ _ _ (9 / 10) rfl rfl (by
      push_cast
      norm_num [h2, h3])
  · simp only [ConvolutionReverb.LoadIR]
    exact conv_update_right_impulse _ _ _ 1 rfl rfl (by norm_num)

omit [Field α] in
/-- C8 amended: the spectra are untouched by every partitioned setter other
than SetIRLengthFactor and the loads (dry/wet, predelay, low cut, high cut,
stereo width), and by the legacy SetPredelay, SetLowCut, SetHighCut and
SetFreeze; the legacy SetStereoWidth is the exception the counterexample
exhibits - on a non-true-stereo nonempty IR it rewrites the right IR and
recomputes the spectra. -/
theorem c8_setters_preserve_spectra (s : PartitionedConvolutionReverb.State α F)
    (sc : ConvolutionReverb.State α F) (v : ℚ) (b : Bool) :
    partSpectra (PartitionedConvolutionReverb.SetDryWet s v) = partSpectra s ∧
    partSpectra (PartitionedConvolutionReverb.SetPredelay s v) = partSpectra s ∧
    partSpectra (PartitionedConvolutionReverb.SetLowCut svfSetFreq svfSetRes svfSetDrive
      s v) = partSpectra s ∧
    partSpectra (PartitionedConvolutionReverb.SetHighCut svfSetFreq svfSetRes svfSetDrive
      s v) = partSpectra s ∧
    partSpectra (PartitionedConvolutionReverb.SetStereoWidth s v) = partSpectra s ∧
    convSpectra (ConvolutionReverb.SetPredelay sc v) = convSpectra sc ∧
    convSpectra (ConvolutionReverb.SetLowCut svfSetFreq sc v) = convSpectra sc ∧
    convSpectra (ConvolutionReverb.SetHighCut svfSetFreq sc v) = convSpectra sc ∧
    convSpectra (ConvolutionReverb.SetFreeze sc b) = convSpectra sc :=
  ⟨rfl, rfl, rfl, rfl, rfl, rfl, rfl, rfl, rfl⟩

/-- Everything in the partitioned engine state that is not the IR or the
spectra: predelay ring (contents, position, delay), tier accumulators and
cursors, filter states. -/
def partFrame (s : PartitionedConvolutionReverb.State α F) :=
  (s.predelayBuffer, s.predelayBufferRight, s.predelayBufferPos, s.predelayInSamples,
   s.earlyInputBuffer, s.earlyInputBufferRight, s.earlyOutputBuffer,
   s.earlyOutputBufferRight, s.earlyInputBufferPos,
   s.lateInputBuffer, s.lateInputBufferRight, s.lateOutputBuffer,
   s.lateOutputBufferRight, s.lateInputBufferPos,
   s.lowCutFilterL, s.highCutFilterL, s.lowCutFilterR, s.highCutFilterR)

/-- Everything in the legacy engine state that is not the IR or the spectra. -/
def convFrame (s : ConvolutionReverb.State α F) :=
  (s.predelayBufferL, s.predelayBufferR, s.predelayBufferPos, s.predelaySamples,
   s.inputBufferL, s.inputBufferR, s.inputBufferPos,
   s.outputBufferL, s.outputBufferR, s.outputBufferPos,
   s.lowCutFilterL, s.highCutFilterL, s.lowCutFilterR, s.highCutFilterR)

/-- UpdateIRFrequencyDomain touches only the spectra. -/
theorem part_update_frame (s : PartitionedConvolutionReverb.State α F) :
    partFrame (PartitionedConvolutionReverb.UpdateIRFrequencyDomain trE tiE trL tiL s).2 =
      partFrame s := by
  simp only [PartitionedConvolutionReverb.UpdateIRFrequencyDomain, partFrame]
  split_ifs <;> rfl

/-- C9: a successful IR load never resets the predelay ring buffers (contents,
write position, delay), the tier input and output accumulators and their
cursors, or the filter states - in either engine, for mono and stereo loads
alike. -/
theorem c9_load_preserves_frame (s : PartitionedConvolutionReverb.State α F)
    (sc : ConvolutionReverb.State α F) (buf bufR : ℕ → α) (len : ℕ)
    (h0 : len ≠ 0) (hcap : len ≤ MAX_IR_LENGTH) :
    partFrame (PartitionedConvolutionReverb.LoadIR trE tiE trL tiL s buf len).2 =
      partFrame s ∧
    partFrame (PartitionedConvolutionReverb.LoadStereoIR trE tiE trL tiL s buf bufR
      len).2 = partFrame s ∧
    convFrame (ConvolutionReverb.LoadIR tr ti sc buf len).2 = convFrame sc ∧
    convFrame (ConvolutionReverb.LoadStereoIR tr ti sc buf bufR len).2 = convFrame sc := by
  have hcond : ¬ (len = 0 ∨ len > MAX_IR_LENGTH) := by
    push_neg
    exact ⟨h0, by omega⟩
  refine ⟨?_, ?_, rfl, rfl⟩
  · simp only [PartitionedConvolutionReverb.LoadIR, if_neg hcond]
    exact part_update_frame trE tiE trL tiL _
  · simp only [PartitionedConvolutionReverb.LoadStereoIR, if_neg hcond]
    exact part_update_frame trE tiE trL tiL _

/-- C9 witness: a successful length-3 mono and stereo load on the initial
states leaves the frame untouched. -/
theorem c9_load_preserves_frame_witness :
    ((3 : ℕ) ≠ 0 ∧ (3 : ℕ) ≤ MAX_IR_LENGTH) ∧
    partFrame (PartitionedConvolutionReverb.LoadIR (α := ℚ) (F := Unit)
        (fun _ => 0) (fun _ => 0) (fun _ => 0) (fun _ => 0)
        (PartitionedConvolutionReverb.initState ()) (fun _ => 1) 3).2 =
      partFrame (PartitionedConvolutionReverb.initState ()) := by
  refine ⟨⟨by norm_num, by norm_num [MAX_IR_LENGTH]⟩, ?_⟩
  exact (c9_load_preserves_frame (fun _ => 0) (fun _ => 0) (fun _ => 0) (fun _ => 0)
    (fun _ => 0) (fun _ => 0)
    (PartitionedConvolutionReverb.initState ()) (ConvolutionReverb.initState ())
    (fun _ => 1) (fun _ => 2) 3 (by norm_num) (by norm_num [MAX_IR_LENGTH])).1

/-- C10: at a tier block boundary, Process overlap-adds the SAME array into
both the left and the right output accumulators of that tier, namely the
right channel's convolution result (computed from the right input accumulator
and the right-channel spectrum) - the left channel's own convolution result is
overwritten in the shared scratch buffers before the overlap-add reads them
and never reaches the output.  Consequently, for every index below the tier
size the value added to the left accumulator equals the value added to the
right accumulator. -/
theorem c10_overlap_add_shared (s : PartitionedConvolutionReverb.State α F)
    (inL inR : α) (hload : s.irLoaded = true)
    (hE : EARLY_FFT_SIZE ≤ s.earlyInputBufferPos + 1)
    (hLt : LATE_FFT_SIZE ≤ s.lateInputBufferPos + 1) :
    ((PartitionedConvolutionReverb.Process trE tiE trL tiL svfProcess svfHigh svfLow
        s inL inR).2.earlyOutputBuffer =
      PartitionedConvolutionReverb.shiftOutput EARLY_FFT_SIZE
        (PartitionedConvolutionReverb.overlapAdd EARLY_FFT_SIZE s.earlyOutputBuffer
          (PartitionedConvolutionReverb.convolveBlock trE tiE EARLY_FFT_SIZE
            (Function.update s.earlyInputBufferRight s.earlyInputBufferPos
              (PartitionedConvolutionReverb.predelayedPair s inL inR).2)
            s.earlyIrFreqRealRight s.earlyIrFreqImagRight))) ∧
    ((PartitionedConvolutionReverb.Process trE tiE trL tiL svfProcess svfHigh svfLow
        s inL inR).2.earlyOutputBufferRight =
      PartitionedConvolutionReverb.shiftOutput EARLY_FFT_SIZE
        (PartitionedConvolutionReverb.overlapAdd EARLY_FFT_SIZE s.earlyOutputBufferRight
          (PartitionedConvolutionReverb.convolveBlock trE tiE EARLY_FFT_SIZE
            (Function.update s.earlyInputBufferRight s.earlyInputBufferPos
              (PartitionedConvolutionReverb.predelayedPair s inL inR).2)
            s.earlyIrFreqRealRight s.earlyIrFreqImagRight))) ∧
    (∀ X : ℕ → α, ∀ i < EARLY_FFT_SIZE,
      PartitionedConvolutionReverb.overlapAdd EARLY_FFT_SIZE s.earlyOutputBuffer X i -
          s.earlyOutputBuffer (i + EARLY_FFT_SIZE) =
        PartitionedConvolutionReverb.overlapAdd EARLY_FFT_SIZE s.earlyOutputBufferRight X i -
          s.earlyOutputBufferRight (i + EARLY_FFT_SIZE)) ∧
    ((PartitionedConvolutionReverb.Process trE tiE trL tiL svfProcess svfHigh svfLow
        s inL inR).2.lateOutputBuffer =
      PartitionedConvolutionReverb.shiftOutput LATE_FFT_SIZE
        (PartitionedConvolutionReverb.overlapAdd LATE_FFT_SIZE s.lateOutputBuffer
          (PartitionedConvolutionReverb.convolveBlock trL tiL LATE_FFT_SIZE
            (Function.update s.lateInputBufferRight s.lateInputBufferPos
              (PartitionedConvolutionReverb.predelayedPair s inL inR).2)
            s.lateIrFreqRealRight s.lateIrFreqImagRight))) ∧
    ((PartitionedConvolutionReverb.Process trE tiE trL tiL svfProcess svfHigh svfLow
        s inL inR).2.lateOutputBufferRight =
      PartitionedConvolutionReverb.shiftOutput LATE_FFT_SIZE
        (PartitionedConvolutionReverb.overlapAdd LATE_FFT_SIZE s.lateOutputBufferRight
          (PartitionedConvolutionReverb.convolveBlock trL tiL LATE_FFT_SIZE
            (Function.update s.lateInputBufferRight s.lateInputBufferPos
              (PartitionedConvolutionReverb.predelayedPair s inL inR).2)
            s.lateIrFreqRealRight s.lateIrFreqImagRight))) ∧
    (∀ X : ℕ → α, ∀ i < LATE_FFT_SIZE,
      PartitionedConvolutionReverb.overlapAdd LATE_FFT_SIZE s.lateOutputBuffer X i -
          s.lateOutputBuffer (i + LATE_FFT_SIZE) =
        PartitionedConvolutionReverb.overlapAdd LATE_FFT_SIZE s.lateOutputBufferRight X i -
          s.lateOutputBufferRight (i + LATE_FFT_SIZE)) := by
  refine ⟨?_, ?_, ?_, ?_, ?_, ?_⟩
  · simp only [PartitionedConvolutionReverb.Process,
      PartitionedConvolutionReverb.predelayedPair, hload, ge_iff_le, hE, hLt,
      Bool.true_eq_false, if_false, if_true, ite_true, ite_false]
  · simp only [PartitionedConvolutionReverb.Process,
      PartitionedConvolutionReverb.predelayedPair, hload, ge_iff_le, hE, hLt,
      Bool.true_eq_false, if_false, if_true, ite_true, ite_false]
  · intro X i hi
    simp only [PartitionedConvolutionReverb.overlapAdd, if_pos hi]
    ring
  · simp only [PartitionedConvolutionReverb.Process,
      PartitionedConvolutionReverb.predelayedPair, hload, ge_iff_le, hE, hLt,
      Bool.true_eq_false, if_false, if_true, ite_true, ite_false]
  · simp only [PartitionedConvolutionReverb.Process,
      PartitionedConvolutionReverb.predelayedPair, hload, ge_iff_le, hE, hLt,
      Bool.true_eq_false, if_false, if_true, ite_true, ite_false]
  · intro X i hi
    simp only [PartitionedConvolutionReverb.overlapAdd, if_pos hi]
    ring

/-- C10 witness: the boundary hypotheses hold for the initial state with the
IR flag set and both tier cursors one short of their block sizes, and the
shared-overlap-add property follows at that state with inputs (1, 2). -/
theorem c10_overlap_add_shared_witness :
    (({ PartitionedConvolutionReverb.initState () with
        irLoaded := true
        earlyInputBufferPos := 63
        lateInputBufferPos := 1023 } :
          PartitionedConvolutionReverb.State ℚ Unit).irLoaded = true ∧
      EARLY_FFT_SIZE ≤ 63 + 1 ∧ LATE_FFT_SIZE ≤ 1023 + 1) ∧
    (∀ X : ℕ → ℚ, ∀ i < EARLY_FFT_SIZE,
      PartitionedConvolutionReverb.overlapAdd EARLY_FFT_SIZE
          (({ PartitionedConvolutionReverb.initState () with
              irLoaded := true
              earlyInputBufferPos := 63
              lateInputBufferPos := 1023 } :
                PartitionedConvolutionReverb.State ℚ Unit).earlyOutputBuffer) X i -
          ({ PartitionedConvolutionReverb.initState () with
             irLoaded := true
             earlyInputBufferPos := 63
             lateInputBufferPos := 1023 } :
               PartitionedConvolutionReverb.State ℚ Unit).earlyOutputBuffer
            (i + EARLY_FFT_SIZE) =
        PartitionedConvolutionReverb.overlapAdd EARLY_FFT_SIZE
          (({ PartitionedConvolutionReverb.initState () with
              irLoaded := true
              earlyInputBufferPos := 63
              lateInputBufferPos := 1023 } :
                PartitionedConvolutionReverb.State ℚ Unit).earlyOutputBufferRight) X i -
          ({ PartitionedConvolutionReverb.initState () with
             irLoaded := true
             earlyInputBufferPos := 63
             lateInputBufferPos := 1023 } :
               PartitionedConvolutionReverb.State ℚ Unit).earlyOutputBufferRight
            (i + EARLY_FFT_SIZE)) := by
  refine ⟨⟨rfl, by norm_num [EARLY_FFT_SIZE], by norm_num [LATE_FFT_SIZE]⟩, ?_⟩
  exact (c10_overlap_add_shared (fun _ => 0) (fun _ => 0) (fun _ => 0) (fun _ => 0)
    (fun f _ => f) (fun _ => 0) (fun _ => 0)
    ({ PartitionedConvolutionReverb.initState () with
       irLoaded := true
       earlyInputBufferPos := 63
       lateInputBufferPos := 1023 })
    1 2 rfl (by norm_num [EARLY_FFT_SIZE]) (by norm_num [LATE_FFT_SIZE])).2.2.1

end Claims

end EchoBridge
